import Mathlib

/-!
Shallow embedding of the pose-modifier repository (hyde231/pose-modifier).

The embedding translates the Python sources `Pose.py`, `anchor_point.py` and
`scaling.py` into Lean. Conventions used throughout:

* Python floats are modelled as exact rationals (`ℚ`); the idealised exact
  arithmetic is the usual reading of the numeric code.
* A Python `Optional` value, a missing dictionary key, or a `None` slot in a
  landmark list becomes an `Option`.
* Python exceptions (`ValueError`, `TypeError`, `KeyError`, `IndexError`)
  become an explicit error type `ScaleErr`; a fallible function returns
  `Except ScaleErr _`.
* The two Euclidean-norm computations are modelled exactly without a square
  root: the comparison `np.linalg.norm(v) > 1e-6` is the comparison
  `v.x^2 + v.y^2 > (1e-6)^2` (both sides of the original are nonnegative),
  and in `Pose.scale` the product `direction * (norm * s)` with
  `direction = v / norm` equals `v * s` exactly.  Comparisons of
  `np.hypot`-built lengths in the gender/age heuristics are decided by the
  exact square-root comparison kernels `sqrtAddGtSqrt` / `sqrtAddLtSqrt`
  below, which decide `sqrt a + sqrt b > sqrt c` (resp. `<`) for
  nonnegative rationals by squaring twice.
* Python truthiness (`self.input_age or ...`) is modelled explicitly:
  `None` and `0` are falsy for the age, `None` and `""` for the gender.
-/

namespace PoseMod

/-- The 18 canonical COCO joints (`COCO_KEYPOINT_NAMES` in anchor_point.py). -/
inductive Joint where
  | Nose | Neck
  | RShoulder | RElbow | RWrist
  | LShoulder | LElbow | LWrist
  | RHip | RKnee | RAnkle
  | LHip | LKnee | LAnkle
  | REye | LEye | REar | LEar
  deriving DecidableEq, Repr, Fintype

/-- A 2D point, exact-rational model of a pair of Python floats. -/
abbrev Point : Type := ℚ × ℚ

/-- The skeleton adjacency lists: the `connections` dictionary at the top of
Pose.py, in source order. -/
def adj : Joint → List Joint
  | .Neck => [.Nose, .RShoulder, .LShoulder, .RHip, .LHip]
  | .RShoulder => [.RElbow, .Neck]
  | .RElbow => [.RWrist, .RShoulder]
  | .RWrist => [.RElbow]
  | .LShoulder => [.LElbow, .Neck]
  | .LElbow => [.LWrist, .LShoulder]
  | .LWrist => [.LElbow]
  | .RHip => [.RKnee, .Neck]
  | .RKnee => [.RAnkle, .RHip]
  | .RAnkle => [.RKnee]
  | .LHip => [.LKnee, .Neck]
  | .LKnee => [.LAnkle, .LHip]
  | .LAnkle => [.LKnee]
  | .Nose => [.Neck, .REye, .LEye]
  | .REye => [.Nose, .REar]
  | .LEye => [.Nose, .LEar]
  | .REar => [.REye]
  | .LEar => [.LEye]

/-- All 18 joints, in the standard COCO keypoint order
(`COCO_KEYPOINTS_ORDER` in anchor_point.py). -/
def cocoOrder : List Joint :=
  [.Nose, .Neck,
   .RShoulder, .RElbow, .RWrist,
   .LShoulder, .LElbow, .LWrist,
   .RHip, .RKnee, .RAnkle,
   .LHip, .LKnee, .LAnkle,
   .REye, .LEye, .REar, .LEar]

/-- The dataclass `Pose` of Pose.py.  The `body` dictionary becomes a map
from joints to optional points; the landmark lists keep their list shape.
`canvas_width`/`canvas_height` are `None` by default in the source; all
claims concern poses with actual canvas bounds, so they are plain rationals
here. -/
structure Pose where
  body : Joint → Option Point
  face : List (Option Point) := []
  right_hand : List (Option Point) := []
  left_hand : List (Option Point) := []
  right_foot : List (Option Point) := []
  left_foot : List (Option Point) := []
  canvas_width : ℚ := 0
  canvas_height : ℚ := 0
  input_gender : Option String := none
  input_age : Option ℤ := none

/-- The Python exceptions that the modelled code can raise. -/
inductive ScaleErr where
  /-- ValueError: gender must be either male or female
      (raised by `get_scaling_factors`). -/
  | invalidGender
  /-- ValueError: age must be between 0 and 120
      (raised by `get_scaling_factors`). -/
  | invalidAge
  /-- TypeError from comparing `None` with an int
      (raised by `0 <= age` in `get_scaling_factors` when `age is None`). -/
  | typeErr
  /-- KeyError from a failed dictionary lookup. -/
  | keyErr
  /-- IndexError from a list access past the end. -/
  | indexErr
  deriving DecidableEq, Repr

/-! ## anchor_point.py -/

/-- One row of the keypoints array: `(x, y, confidence)`. -/
abbrev KP : Type := ℚ × ℚ × ℚ

/-- `dict_to_keypoints_array`: a present joint becomes `(x, y, 0.9)`
(the default confidence), a missing joint `(0, 0, 0)`. -/
def dictToKeypointsArray (body : Joint → Option Point) : List KP :=
  cocoOrder.map fun j =>
    match body j with
    | some (x, y) => (x, y, 9/10)
    | none => (0, 0, 0)

/-- Row `i` of a keypoints array (reads the array's length-18 rows;
out-of-range indices never occur for arrays built by
`dictToKeypointsArray`). -/
def kpAt (kps : List KP) (i : ℕ) : KP := kps.getD i (0, 0, 0)

/-- The mean of a list of rationals (`np.mean`); lists of length 0 only
arise for the all-raw fallback on an 18-row array, which is never empty. -/
def listMean (l : List ℚ) : ℚ := l.sum / l.length

/-- `estimate_midhip`: the midpoint of RHip (row 8) and LHip (row 11), when
both have confidence above the threshold. -/
def estimateMidhip (kps : List KP) (confThresh : ℚ) : Option Point :=
  let r := kpAt kps 8
  let l := kpAt kps 11
  if r.2.2 > confThresh ∧ l.2.2 > confThresh then
    some ((r.1 + l.1) / 2, (r.2.1 + l.2.1) / 2)
  else none

/-- The torso point list of `estimate_COM`: rows 1 (Neck), 2 (RShoulder),
5 (LShoulder) that pass the confidence threshold, then the midhip point
when both hips are present. -/
def torsoPoints (kps : List KP) (confThresh : ℚ) : List Point :=
  ([1, 2, 5].filterMap fun idx =>
    let k := kpAt kps idx
    if k.2.2 > confThresh then some (k.1, k.2.1) else none) ++
  (match estimateMidhip kps confThresh with
   | some m => [m]
   | none => [])

/-- `estimate_COM` of anchor_point.py.  The weighted average of the torso
center and the two leg centers, with mass shares torso 0.5, each leg 0.2 and
arms 0.1; the arm share enters the total mass but no arm point is ever
sampled into the numerator.  With no torso point, the fallback is the mean
of the visible rows, or of all raw rows when nothing is visible. -/
def estimateCOM (kps : List KP) (confThresh : ℚ) : Point :=
  let tps := torsoPoints kps confThresh
  if tps = [] then
    let visible := kps.filter fun k => k.2.2 > confThresh
    if visible = [] then
      (listMean (kps.map fun k => k.1), listMean (kps.map fun k => k.2.1))
    else
      (listMean (visible.map fun k => k.1), listMean (visible.map fun k => k.2.1))
  else
    let torsoCenter : Point :=
      (listMean (tps.map Prod.fst), listMean (tps.map Prod.snd))
    let legCenter := fun (hipIdx ankleIdx : ℕ) =>
      let hip := kpAt kps hipIdx
      let ankle := kpAt kps ankleIdx
      if hip.2.2 > confThresh ∧ ankle.2.2 > confThresh then
        ((hip.1 + ankle.1) / 2, (hip.2.1 + ankle.2.1) / 2)
      else if hip.2.2 > confThresh then
        (hip.1, hip.2.1)
      else torsoCenter
    let rleg := legCenter 8 10
    let lleg := legCenter 11 13
    let torsoMass : ℚ := 1/2
    let rlegMass : ℚ := 1/5
    let llegMass : ℚ := 1/5
    let armsMass : ℚ := 1/10
    let totalMass := torsoMass + rlegMass + llegMass + armsMass
    ((torsoCenter.1 * torsoMass + rleg.1 * rlegMass + lleg.1 * llegMass) / totalMass,
     (torsoCenter.2 * torsoMass + rleg.2 * rlegMass + lleg.2 * llegMass) / totalMass)

/-- Stable insertion (descending keys): the inserted element goes after any
element with an equal or larger key, as Python's stable `sort(reverse=True)`
orders equal keys. -/
def insertDescBy {α : Type} (key : α → ℚ) (x : α) : List α → List α
  | [] => [x]
  | y :: ys => if key x > key y then x :: y :: ys else y :: insertDescBy key x ys

/-- Stable sort by descending key (Python `sort(key=..., reverse=True)`). -/
def sortDescBy {α : Type} (key : α → ℚ) (l : List α) : List α :=
  l.foldr (insertDescBy key) []

/-- Stable insertion (ascending keys). -/
def insertAscBy {α : Type} (key : α → ℚ) (x : α) : List α → List α
  | [] => [x]
  | y :: ys => if key x ≤ key y then x :: y :: ys else y :: insertAscBy key x ys

/-- Stable sort by ascending key (Python `sort(key=...)`). -/
def sortAscBy {α : Type} (key : α → ℚ) (l : List α) : List α :=
  l.foldr (insertAscBy key) []

/-- `COCO_KEYPOINT_NAMES[i]` as a joint (indices 0..17; the default is never
reached: the groups below only hold indices 1..13). -/
def jointAt (i : ℕ) : Joint := cocoOrder.getD i .Nose

/-- The candidate groups of `choose_main_support_with_gravity`, in priority
order: ankles, knees, hips, neck (as row indices). -/
def supportGroups : List (List ℕ) := [[10, 13], [9, 12], [8, 11], [1]]

/-- The per-group body of `choose_main_support_with_gravity`: visible points
of the group, sorted by descending y; every point within the vertical
tolerance of the lowest one is a candidate; of several candidates the one
with x closest to the center of mass wins. -/
def chooseFromGroups (kps : List KP) (confThresh vertTol comX : ℚ) :
    List (List ℕ) → Option Joint
  | [] => none
  | g :: rest =>
    let visible := g.filterMap fun idx =>
      let k := kpAt kps idx
      if k.2.2 > confThresh then some (idx, k.1, k.2.1) else none
    match visible with
    | [] => chooseFromGroups kps confThresh vertTol comX rest
    | v :: vs =>
      let sorted := sortDescBy (fun p => p.2.2) (v :: vs)
      let topY := (sorted.headD (0, 0, 0)).2.2
      let candidates := sorted.filter fun p => |p.2.2 - topY| ≤ vertTol
      let chosen :=
        if candidates.length = 1 then candidates.headD (0, 0, 0)
        else (sortAscBy (fun p => |p.2.1 - comX|) candidates).headD (0, 0, 0)
      some (jointAt chosen.1)

/-- `choose_main_support_with_gravity` with its default
`confidence_threshold=0.1` and `vertical_tolerance=5.0`. -/
def chooseMainSupportWithGravity (kps : List KP) : Option Joint :=
  let confThresh : ℚ := 1/10
  let vertTol : ℚ := 5
  let com := estimateCOM kps confThresh
  chooseFromGroups kps confThresh vertTol com.1 supportGroups

/-! ## scaling.py -/

/-- The WHO-based height table of `get_height_by_age_gender` for keys 1..20
(any other key is absent from the Python dictionary; this function is only
evaluated at 1..20 by `getHeightByAgeGender`). -/
def heightData (gender : String) (age : ℤ) : ℚ :=
  if gender = "male" then
    if age ≤ 1 then 75 else if age = 2 then 87 else if age = 3 then 96
    else if age = 4 then 102 else if age = 5 then 108 else if age = 6 then 115
    else if age = 7 then 120 else if age = 8 then 125 else if age = 9 then 130
    else if age = 10 then 137 else if age = 11 then 143 else if age = 12 then 149
    else if age = 13 then 156 else if age = 14 then 163 else if age = 15 then 169
    else if age = 16 then 173 else if age = 17 then 175 else 176
  else
    if age ≤ 1 then 74 else if age = 2 then 85 else if age = 3 then 95
    else if age = 4 then 100 else if age = 5 then 106 else if age = 6 then 113
    else if age = 7 then 118 else if age = 8 then 123 else if age = 9 then 129
    else if age = 10 then 135 else if age = 11 then 141 else if age = 12 then 148
    else if age = 13 then 155 else if age = 14 then 160 else if age = 15 then 163
    else if age = 16 then 164 else if age = 17 then 164 else 165

/-- `get_height_by_age_gender`: ages at least 20 return the adult height,
tabulated ages return their entry, ages below the tabulated minimum clamp
to age 1 (the dictionary `.get(gender, female-table)` fallback means any
gender other than "male" reads the female table). -/
def getHeightByAgeGender (age : ℤ) (gender : String) : ℚ :=
  if age ≥ 20 then heightData gender 20
  else if 1 ≤ age ∧ age ≤ 20 then heightData gender age
  else heightData gender 1

/-- The scaling-factor dictionary of `get_scaling_factors`: one field per
key, all rational. -/
structure ScalingFactors where
  head_ratio : ℚ
  torso_ratio : ℚ
  arm_ratio : ℚ
  leg_ratio : ℚ
  hand_ratio : ℚ
  foot_ratio : ℚ
  eye_factor : ℚ
  mouth_factor : ℚ
  jaw_factor : ℚ
  nose_factor : ℚ
  face_contour_factor : ℚ
  deriving DecidableEq, Repr

/-- The base adult proportions of `get_scaling_factors`. -/
def scalingFactorsBase : ScalingFactors :=
  { head_ratio := 15/100, torso_ratio := 36/100, arm_ratio := 20/100,
    leg_ratio := 30/100, hand_ratio := 1, foot_ratio := 1, eye_factor := 1,
    mouth_factor := 1, jaw_factor := 1, nose_factor := 1,
    face_contour_factor := 1 }

/-- The age-range overrides of `get_scaling_factors`: each bracket replaces
every key, ages past the last bracket keep the adult base. -/
def ageRangeFactors (age : ℤ) : ScalingFactors :=
  if 0 ≤ age ∧ age ≤ 5 then
    { head_ratio := 25/100, torso_ratio := 30/100, arm_ratio := 15/100,
      leg_ratio := 30/100, hand_ratio := 8/10, foot_ratio := 8/10,
      eye_factor := 15/10, mouth_factor := 12/10, jaw_factor := 13/10,
      nose_factor := 8/10, face_contour_factor := 14/10 }
  else if 6 ≤ age ∧ age ≤ 7 then
    { head_ratio := 23/100, torso_ratio := 32/100, arm_ratio := 17/100,
      leg_ratio := 29/100, hand_ratio := 85/100, foot_ratio := 85/100,
      eye_factor := 14/10, mouth_factor := 11/10, jaw_factor := 12/10,
      nose_factor := 85/100, face_contour_factor := 13/10 }
  else if 8 ≤ age ∧ age ≤ 10 then
    { head_ratio := 21/100, torso_ratio := 34/100, arm_ratio := 18/100,
      leg_ratio := 28/100, hand_ratio := 9/10, foot_ratio := 9/10,
      eye_factor := 13/10, mouth_factor := 11/10, jaw_factor := 115/100,
      nose_factor := 9/10, face_contour_factor := 12/10 }
  else if 11 ≤ age ∧ age ≤ 13 then
    { head_ratio := 19/100, torso_ratio := 35/100, arm_ratio := 19/100,
      leg_ratio := 27/100, hand_ratio := 1, foot_ratio := 1,
      eye_factor := 12/10, mouth_factor := 11/10, jaw_factor := 105/100,
      nose_factor := 1, face_contour_factor := 11/10 }
  else if 14 ≤ age ∧ age ≤ 16 then
    { head_ratio := 17/100, torso_ratio := 36/100, arm_ratio := 19/100,
      leg_ratio := 28/100, hand_ratio := 105/100, foot_ratio := 105/100,
      eye_factor := 11/10, mouth_factor := 11/10, jaw_factor := 1,
      nose_factor := 1, face_contour_factor := 105/100 }
  else if 17 ≤ age ∧ age ≤ 19 then
    { head_ratio := 17/100, torso_ratio := 36/100, arm_ratio := 20/100,
      leg_ratio := 29/100, hand_ratio := 11/10, foot_ratio := 11/10,
      eye_factor := 1, mouth_factor := 1, jaw_factor := 1,
      nose_factor := 1, face_contour_factor := 105/100 }
  else scalingFactorsBase

/-- The gender-based adjustments of `get_scaling_factors`: softer jawline,
larger lips and rounder contour for "female". -/
def applyGenderFactors (gender : String) (f : ScalingFactors) : ScalingFactors :=
  if gender = "female" then
    { f with jaw_factor := f.jaw_factor * (95/100),
             mouth_factor := f.mouth_factor * (11/10),
             face_contour_factor := f.face_contour_factor * (105/100) }
  else f

/-- The scaling-factor table after both adjustments (the value
`get_scaling_factors` returns once its argument checks pass). -/
def scalingTable (age : ℤ) (gender : String) : ScalingFactors :=
  applyGenderFactors gender (ageRangeFactors age)

/-- `get_scaling_factors` with its argument checks, applied to optional
arguments exactly as `Pose.scale` passes its possibly-unresolved input
profile: a gender that is not "male"/"female" (including `None`) raises
ValueError first; then comparing a `None` age raises TypeError; then an age
outside [0, 120] raises ValueError. -/
def getScalingFactorsO (age : Option ℤ) (gender : Option String) :
    Except ScaleErr ScalingFactors :=
  match gender with
  | none => .error .invalidGender
  | some g =>
    if g ≠ "male" ∧ g ≠ "female" then .error .invalidGender
    else
      match age with
      | none => .error .typeErr
      | some a =>
        if ¬(0 ≤ a ∧ a ≤ 120) then .error .invalidAge
        else .ok (scalingTable a g)

/-- The adjusted factors of `Pose.scale`: the target value divided by the
input value, key by key. -/
def adjustFactors (target input : ScalingFactors) : ScalingFactors :=
  { head_ratio := target.head_ratio / input.head_ratio,
    torso_ratio := target.torso_ratio / input.torso_ratio,
    arm_ratio := target.arm_ratio / input.arm_ratio,
    leg_ratio := target.leg_ratio / input.leg_ratio,
    hand_ratio := target.hand_ratio / input.hand_ratio,
    foot_ratio := target.foot_ratio / input.foot_ratio,
    eye_factor := target.eye_factor / input.eye_factor,
    mouth_factor := target.mouth_factor / input.mouth_factor,
    jaw_factor := target.jaw_factor / input.jaw_factor,
    nose_factor := target.nose_factor / input.nose_factor,
    face_contour_factor := target.face_contour_factor / input.face_contour_factor }

/-- The `connection_map` of `get_edge_factor`, as a forward lookup. -/
def connLookup (f : ScalingFactors) : Joint → Joint → Option ℚ
  | .Neck, .Nose => some f.head_ratio
  | .Neck, .RShoulder => some f.torso_ratio
  | .Neck, .LShoulder => some f.torso_ratio
  | .Neck, .RHip => some f.torso_ratio
  | .Neck, .LHip => some f.torso_ratio
  | .RShoulder, .RElbow => some f.arm_ratio
  | .RElbow, .RWrist => some f.arm_ratio
  | .LShoulder, .LElbow => some f.arm_ratio
  | .LElbow, .LWrist => some f.arm_ratio
  | .RHip, .RKnee => some f.leg_ratio
  | .RKnee, .RAnkle => some f.leg_ratio
  | .LHip, .LKnee => some f.leg_ratio
  | .LKnee, .LAnkle => some f.leg_ratio
  | .Nose, .REye => some f.head_ratio
  | .Nose, .LEye => some f.head_ratio
  | .REye, .REar => some f.head_ratio
  | .LEye, .LEar => some f.head_ratio
  | _, _ => none

/-- `get_edge_factor`: forward lookup, then the reversed pair, then the head
ratio as the default for unexpected connections. -/
def getEdgeFactor (start finish : Joint) (f : ScalingFactors) : ℚ :=
  match connLookup f start finish with
  | some v => v
  | none =>
    match connLookup f finish start with
    | some v => v
    | none => f.head_ratio

/-- `scale_and_align_points` of scaling.py (hands and feet): empty point
lists and missing bases (either one) pass through unchanged, otherwise each
present point moves to `scaled_base + (point - original_base) * factor`. -/
def scaleAndAlignPoints (points : List (Option Point)) (factor : ℚ)
    (scaledBase origBase : Option Point) : List (Option Point) :=
  match points, scaledBase, origBase with
  | [], _, _ => points
  | _, none, _ => points
  | _, _, none => points
  | _, some s, some o =>
    points.map (Option.map fun pt =>
      (s.1 + (pt.1 - o.1) * factor, s.2 + (pt.2 - o.2) * factor))

/-- `calculate_mouth_center` inside `scale_face`: the mean of the present
mouth landmarks (indices 48..67).  The Python list accesses `face_points[i]`
are unguarded, so a face list shorter than 68 entries raises IndexError
here. -/
def calcMouthCenter (face : List (Option Point)) :
    Except ScaleErr (Option Point) :=
  if face.length < 68 then .error .indexErr
  else
    let valid := ((face.drop 48).take 20).filterMap id
    match valid with
    | [] => .ok none
    | _ =>
      .ok (some ((valid.map Prod.fst).sum / valid.length,
                 (valid.map Prod.snd).sum / valid.length))

/-- One region pass of `scale_face.scale_region`: when either base is
missing the region is left untouched (the non-fatal warning branch);
otherwise each present point with an index in the region moves by
`scaled_base + (point - original_base) * factor * height_ratio`.  The
region index sets are pairwise disjoint and each index is written at most
once, so the in-place Python loop equals this per-index map. -/
def scaleRegion (face : List (Option Point)) (indices : List ℕ)
    (scaledBase origBase : Option Point) (factor heightRatio : ℚ) :
    List (Option Point) :=
  match scaledBase, origBase with
  | some sb, some ob =>
    face.mapIdx fun i p =>
      if i ∈ indices then
        p.map fun pt =>
          (sb.1 + (pt.1 - ob.1) * factor * heightRatio,
           sb.2 + (pt.2 - ob.2) * factor * heightRatio)
      else p
  | _, _ => face

/-- The `regions` table of `scale_face`, with each range spelled out. -/
def faceContourIdx : List ℕ := [0, 1, 2, 3, 4, 5, 11, 12, 13, 14, 15, 16]

def jawIdx : List ℕ := [6, 7, 8, 9, 10]

def rightEyebrowIdx : List ℕ := [17, 18, 19, 20, 21]

def leftEyebrowIdx : List ℕ := [22, 23, 24, 25, 26]

def noseIdx : List ℕ := [27, 28, 29, 30, 31, 32, 33, 34, 35]

def rightEyeIdx : List ℕ := [36, 37, 38, 39, 40, 41]

def leftEyeIdx : List ℕ := [42, 43, 44, 45, 46, 47]

def mouthIdx : List ℕ :=
  [48, 49, 50, 51, 52, 53, 54, 55, 56, 57, 58, 59, 60, 61, 62,
   63, 64, 65, 66, 67, 68, 69, 70]

/-- `scale_face` of scaling.py.  An empty or all-absent face list returns
unchanged.  Otherwise the mouth center is computed; when it exists, its
scaled position is `scaled(Nose) + (center - original(Nose)) * height_ratio`
through direct dictionary accesses, so a missing Nose (scaled or original)
raises KeyError.  Each facial region is then scaled around its base (the
regions with a missing base being skipped non-fatally), in the source's
region order.  The final float conversion of the source is the identity
here. -/
def scaleFace (face : List (Option Point)) (f : ScalingFactors)
    (heightRatio : ℚ) (scaled : Joint → Option Point)
    (original : Joint → Option Point) :
    Except ScaleErr (List (Option Point)) :=
  if face = [] ∨ face.all (fun p => p = none) then .ok face
  else do
    let mouthCenter ← calcMouthCenter face
    let scaledMouthCenter : Option Point ←
      (match mouthCenter with
       | some mc =>
         (match scaled .Nose, original .Nose with
          | some sn, some orign =>
            pure (some (sn.1 + (mc.1 - orign.1) * heightRatio,
                        sn.2 + (mc.2 - orign.2) * heightRatio))
          | _, _ => Except.error ScaleErr.keyErr)
       | none => pure none)
    let step1 := scaleRegion face faceContourIdx (scaled .Nose) (original .Nose)
      f.face_contour_factor heightRatio
    let step2 := scaleRegion step1 jawIdx (scaled .Nose) (original .Nose)
      f.jaw_factor heightRatio
    let step3 := scaleRegion step2 rightEyebrowIdx (scaled .REye) (original .REye)
      f.eye_factor heightRatio
    let step4 := scaleRegion step3 leftEyebrowIdx (scaled .LEye) (original .LEye)
      f.eye_factor heightRatio
    let step5 := scaleRegion step4 noseIdx (scaled .Nose) (original .Nose)
      f.nose_factor heightRatio
    let step6 := scaleRegion step5 rightEyeIdx (scaled .REye) (original .REye)
      f.eye_factor heightRatio
    let step7 := scaleRegion step6 leftEyeIdx (scaled .LEye) (original .LEye)
      f.eye_factor heightRatio
    let step8 := scaleRegion step7 mouthIdx scaledMouthCenter mouthCenter
      f.mouth_factor heightRatio
    .ok step8

/-! ## Pose.py: the estimation heuristics

The heuristics compare Euclidean lengths built with `np.hypot`.  In exact
arithmetic every such comparison is a comparison of `sqrt a + sqrt b` with
`sqrt c` for nonnegative rationals `a`, `b`, `c` (a single length is the
case `b = 0`), which is decided exactly by squaring twice:
`sqrt a + sqrt b > sqrt c` iff `2 * sqrt (a*b) > c - a - b` iff
`c - a - b < 0 ∨ 4*a*b > (c - a - b)^2`, and dually for `<`. -/

/-- The squared Euclidean distance between two points
(`calculate_distance p q` squared). -/
def distSq (p q : Point) : ℚ := (q.1 - p.1) ^ 2 + (q.2 - p.2) ^ 2

/-- Decides `sqrt a + sqrt b > sqrt c` for nonnegative rationals. -/
def sqrtAddGtSqrt (a b c : ℚ) : Bool :=
  c - a - b < 0 ∨ 4 * a * b > (c - a - b) ^ 2

/-- Decides `sqrt a + sqrt b < sqrt c` for nonnegative rationals. -/
def sqrtAddLtSqrt (a b c : ℚ) : Bool :=
  c - a - b > 0 ∧ 4 * a * b < (c - a - b) ^ 2

/-- Python truthiness of an optional string: `None` and the empty string
are falsy. -/
def strOptTruthy : Option String → Bool
  | some s => s ≠ ""
  | none => false

/-- Python truthiness of an optional integer: `None` and `0` are falsy. -/
def intOptTruthy : Option ℤ → Bool
  | some a => a ≠ 0
  | none => false

/-- `Pose.guess_gender`: the declared gender when truthy; else Neck, RHip,
RKnee and RAnkle must all be present, the torso length must be positive,
and the result is "male" exactly when leg length / torso length > 1.5,
i.e. `sqrt (dist RHip RKnee) + sqrt (dist RKnee RAnkle) >
sqrt ((3/2)^2 * dist Neck RHip)`. -/
def guessGender (p : Pose) : Option String :=
  if strOptTruthy p.input_gender then p.input_gender
  else
    match p.body .Neck, p.body .RHip, p.body .RKnee, p.body .RAnkle with
    | some neck, some rhip, some rknee, some rankle =>
      let torsoSq := distSq neck rhip
      let legASq := distSq rhip rknee
      let legBSq := distSq rknee rankle
      if torsoSq > 0 then
        if sqrtAddGtSqrt legASq legBSq ((9/4) * torsoSq) then some "male"
        else some "female"
      else none
    | _, _, _, _ => none

/-- The reference ratio `torso_ratio / head_ratio` of the scaling-factor
table at a given age and gender (`guess_age` builds this table for ages
0..20). -/
def ageRefRatio (gender : String) (age : ℤ) : ℚ :=
  (scalingTable age gender).torso_ratio / (scalingTable age gender).head_ratio

/-- Decides whether the measured torso-to-head ratio
`x = (sqrt c1 + sqrt c2) / (2 * sqrt h)` (with `h > 0`) satisfies `x > m`
for a nonnegative rational bound `m`:
`x > m` iff `sqrt c1 + sqrt c2 > sqrt (4 * m^2 * h)`. -/
def measuredRatioGt (c1 c2 h m : ℚ) : Bool :=
  sqrtAddGtSqrt c1 c2 (4 * m ^ 2 * h)

/-- Decides `x < m`, dually. -/
def measuredRatioLt (c1 c2 h m : ℚ) : Bool :=
  sqrtAddLtSqrt c1 c2 (4 * m ^ 2 * h)

/-- Decides `|x - ra| < |x - rb|` for the measured ratio `x` and two table
ratios: squaring both sides, the comparison reduces to comparing `x` with
the midpoint `(ra + rb) / 2` (all table ratios are positive, so the
midpoints are nonnegative as `measuredRatioGt/Lt` require). -/
def measuredRatioCloser (c1 c2 h ra rb : ℚ) : Bool :=
  if ra = rb then false
  else if ra < rb then measuredRatioLt c1 c2 h ((ra + rb) / 2)
  else measuredRatioGt c1 c2 h ((ra + rb) / 2)

/-- The argmin scan of `guess_age` over ages 0..20: `min_difference` starts
at infinity, so age 0 always becomes the first best match; each later age
replaces the best exactly when its table ratio is strictly closer to the
measured ratio (ties keep the earlier age). -/
def bestAgeScan (c1 c2 h : ℚ) (gender : String) : ℤ :=
  ((List.range 20).map fun n => (n : ℤ) + 1).foldl
    (fun best a =>
      if measuredRatioCloser c1 c2 h (ageRefRatio gender a) (ageRefRatio gender best)
      then a else best)
    0

/-- `Pose.guess_age`.  Missing Neck/Nose (head) or Neck/RHip/LHip (torso)
return `None`.  The reference gender is the guessed gender, defaulting to
"female" when falsy; a truthy declared gender outside male/female makes the
table build raise ValueError.  A zero head length makes the measured ratio
infinite (numpy float semantics), so no age ever improves the infinite
initial difference and the result is `None`.  Otherwise the closest table
age in 0..20 is returned. -/
def guessAge (p : Pose) : Except ScaleErr (Option ℤ) :=
  match p.body .Neck, p.body .Nose with
  | some neck, some nose =>
    match p.body .RHip, p.body .LHip with
    | some rhip, some lhip =>
      let headSq := distSq neck nose
      let c1 := distSq neck rhip
      let c2 := distSq neck lhip
      let refGender :=
        match guessGender p with
        | some g => if g ≠ "" then g else "female"
        | none => "female"
      if refGender ≠ "male" ∧ refGender ≠ "female" then .error .invalidGender
      else if headSq = 0 then .ok none
      else .ok (some (bestAgeScan c1 c2 headSq refGender))
    | _, _ => .ok none
  | _, _ => .ok none

/-- Line 202 of Pose.py: `input_age = self.input_age or self.guess_age()`.
A declared age of `0` is falsy in Python, so it falls through to the
guess. -/
def resolveInputAge (p : Pose) : Except ScaleErr (Option ℤ) :=
  if intOptTruthy p.input_age then .ok p.input_age else guessAge p

/-- Line 203 of Pose.py:
`input_gender = self.input_gender or self.guess_gender()`. -/
def resolveInputGender (p : Pose) : Option String :=
  if strOptTruthy p.input_gender then p.input_gender else guessGender p

/-! ## Pose.py: the BFS skeleton rescale -/

/-- The squared BFS length threshold: `norm > 1e-6` iff
`normSq > (1e-6)^2`. -/
def epsSq : ℚ := 1 / 1000000000000

/-- The BFS state of `Pose.scale`: the `scaled_keypoints` dictionary and
the FIFO queue.  The `visited` set of the source always equals the key set
of `scaled_keypoints` (both start as the anchor singleton and every write
adds the same joint to both), so the map's domain stands for it. -/
structure BFSState where
  scaled : Joint → Option Point
  queue : List Joint

/-- The body of the inner `for connection in connections.get(current, [])`
loop: a neighbor not yet visited and present in the body is rescaled when
the displacement from `current` is longer than the threshold; the scaled
position is `scaled(current) + direction * (norm * edge_factor *
height_ratio)`, which in exact arithmetic is
`scaled(current) + vector * (edge_factor * height_ratio)`.  The `getD`
reads of `current` never see the default: `current` always comes from the
queue, whose members are in the map's domain and present in the body. -/
def processConn (body : Joint → Option Point) (f : ScalingFactors)
    (heightRatio : ℚ) (current : Joint) (st : BFSState) (conn : Joint) :
    BFSState :=
  match st.scaled conn, body conn with
  | none, some endPos =>
    let startPos := (st.scaled current).getD (0, 0)
    let curPos := (body current).getD (0, 0)
    let v : Point := (endPos.1 - curPos.1, endPos.2 - curPos.2)
    let normSq := v.1 ^ 2 + v.2 ^ 2
    if normSq > epsSq then
      let edgeFactor := getEdgeFactor current conn f
      { scaled := Function.update st.scaled conn
          (some (startPos.1 + v.1 * (edgeFactor * heightRatio),
                 startPos.2 + v.2 * (edgeFactor * heightRatio))),
        queue := st.queue ++ [conn] }
    else st
  | _, _ => st

/-- The `while queue:` loop of `Pose.scale`, with explicit fuel.  Each
iteration pops one joint and visits at most its fresh neighbors, so the
sum `queue length + number of unvisited joints` drops by one per
iteration; `Pose.scale` passes fuel 18, which that measure never exceeds,
so the loop always runs to an empty queue (`bfsLoopF_measure_le` below). -/
def bfsLoopF (body : Joint → Option Point) (f : ScalingFactors)
    (heightRatio : ℚ) : ℕ → BFSState → (Joint → Option Point)
  | 0, st => st.scaled
  | fuel + 1, st =>
    match st.queue with
    | [] => st.scaled
    | current :: rest =>
      bfsLoopF body f heightRatio fuel
        ((adj current).foldl (processConn body f heightRatio current)
          { scaled := st.scaled, queue := rest })

/-- The scaled skeleton of `Pose.scale`: BFS from the anchor, whose scaled
position is its original position. -/
def scaleBody (body : Joint → Option Point) (f : ScalingFactors)
    (heightRatio : ℚ) (anchor : Joint) (anchorPos : Point) :
    Joint → Option Point :=
  bfsLoopF body f heightRatio 18
    { scaled := Function.update (fun _ => none) anchor (some anchorPos),
      queue := [anchor] }

/-- `crop_point` of `Pose.scale`: clamp each axis into
`[0, canvas] `. -/
def cropPoint (w h : ℚ) (pt : Point) : Point :=
  (max 0 (min w pt.1), max 0 (min h pt.2))

/-- `Pose.scale`.  The input profile is resolved (declared-or-guessed, with
Python truthiness), both profiles are looked up (with their argument
checks), the height ratio is computed (defensively 1 when the input height
is not positive), the anchor is chosen on the input skeleton, the skeleton
is rescaled by BFS from the anchor, the secondary clusters are scaled and
aligned, everything is cropped to the canvas, and a new pose carrying the
target profile as its declared profile is returned.  A `None` anchor (or,
unreachably, an anchor missing from the body) raises KeyError at
`self.body[anchor]`. -/
def Pose.scale (p : Pose) (targetGender : String) (targetAge : ℤ) :
    Except ScaleErr Pose := do
  let inAge ← resolveInputAge p
  let inGender := resolveInputGender p
  let inputFactors ← getScalingFactorsO inAge inGender
  let targetFactors ← getScalingFactorsO (some targetAge) (some targetGender)
  let adjusted := adjustFactors targetFactors inputFactors
  let inputHeight := getHeightByAgeGender (inAge.getD 0) (inGender.getD "female")
  let targetHeight := getHeightByAgeGender targetAge targetGender
  let heightRatio := if inputHeight > 0 then targetHeight / inputHeight else 1
  match chooseMainSupportWithGravity (dictToKeypointsArray p.body) with
  | none => .error .keyErr
  | some anchor =>
    match p.body anchor with
    | none => .error .keyErr
    | some anchorPos =>
      let scaledK := scaleBody p.body adjusted heightRatio anchor anchorPos
      let newFace ← scaleFace p.face adjusted heightRatio scaledK p.body
      let newLeftHand := scaleAndAlignPoints p.left_hand
        (adjusted.hand_ratio * heightRatio) (scaledK .LWrist) (p.body .LWrist)
      let newRightHand := scaleAndAlignPoints p.right_hand
        (adjusted.hand_ratio * heightRatio) (scaledK .RWrist) (p.body .RWrist)
      let newLeftFoot := scaleAndAlignPoints p.left_foot
        (adjusted.foot_ratio * heightRatio) (scaledK .LAnkle) (p.body .LAnkle)
      let newRightFoot := scaleAndAlignPoints p.right_foot
        (adjusted.foot_ratio * heightRatio) (scaledK .RAnkle) (p.body .RAnkle)
      let crop := cropPoint p.canvas_width p.canvas_height
      .ok { body := fun j => (scaledK j).map crop,
            face := newFace.map (Option.map crop),
            right_hand := newRightHand.map (Option.map crop),
            left_hand := newLeftHand.map (Option.map crop),
            right_foot := newRightFoot.map (Option.map crop),
            left_foot := newLeftFoot.map (Option.map crop),
            canvas_width := p.canvas_width,
            canvas_height := p.canvas_height,
            input_gender := some targetGender,
            input_age := some targetAge }

/-- One BFS edge as the code traverses it: the neighbor is adjacent, both
endpoints are present in the input body, and the displacement between their
original positions is longer than the `1e-6` threshold (squared
comparison). -/
def codeStep (body : Joint → Option Point) (u c : Joint) : Prop :=
  c ∈ adj u ∧ ∃ pu pc, body u = some pu ∧ body c = some pc ∧ distSq pu pc > epsSq

/-- Reachability along the edges the BFS of `Pose.scale` can traverse. -/
def CodeReach (body : Joint → Option Point) (u c : Joint) : Prop :=
  Relation.ReflTransGen (codeStep body) u c

/-- One edge as the spec quantifies reachability: adjacent, with both
endpoints present (no length threshold). -/
def specStep (body : Joint → Option Point) (u c : Joint) : Prop :=
  c ∈ adj u ∧ (body u).isSome ∧ (body c).isSome

/-- Reachability from the anchor through adjacency edges whose endpoints
are present, as the claims state it. -/
def SpecReach (body : Joint → Option Point) (u c : Joint) : Prop :=
  Relation.ReflTransGen (specStep body) u c

/-- The position the BFS writes for `c` reached from `u`: in exact
arithmetic `scaled(u) + unit_direction * (norm * edge_factor *
height_ratio)` is `scaled(u) + vector * (edge_factor * height_ratio)`. -/
def stepValue (f : ScalingFactors) (hr : ℚ) (pv bp bj : Point) (u c : Joint) :
    Point :=
  (pv.1 + (bj.1 - bp.1) * (getEdgeFactor u c f * hr),
   pv.2 + (bj.2 - bp.2) * (getEdgeFactor u c f * hr))

/-- A non-anchor entry of the scaled-keypoints map always records a parent:
an already-scaled adjacent joint from whose scaled position it was
computed. -/
def parentWitness (body : Joint → Option Point) (f : ScalingFactors)
    (hr : ℚ) (scaled : Joint → Option Point) (j : Joint) (v : Point) : Prop :=
  ∃ par pv bp bj, scaled par = some pv ∧ j ∈ adj par ∧ body par = some bp ∧
    body j = some bj ∧ distSq bp bj > epsSq ∧ v = stepValue f hr pv bp bj par j

/-- The value of the CALLER's `self.face` list after `Pose.scale` returns
or raises.  `scale_face` receives `self.face` itself and `scale_region`
assigns `face_points[i] = ...` in place, so on a successful call the input
pose's face list ends up holding the region-scaled points (the final
`float` conversion rebinds only the local name).  On every failing path
(profile errors, KeyError on the anchor, IndexError or KeyError inside
`scale_face` before any region loop runs) the list is unchanged. -/
def faceAfterScale (p : Pose) (targetGender : String) (targetAge : ℤ) :
    List (Option Point) :=
  match (do
    let inAge ← resolveInputAge p
    let inGender := resolveInputGender p
    let inputFactors ← getScalingFactorsO inAge inGender
    let targetFactors ← getScalingFactorsO (some targetAge) (some targetGender)
    let adjusted := adjustFactors targetFactors inputFactors
    let inputHeight := getHeightByAgeGender (inAge.getD 0) (inGender.getD "female")
    let targetHeight := getHeightByAgeGender targetAge targetGender
    let heightRatio := if inputHeight > 0 then targetHeight / inputHeight else 1
    match chooseMainSupportWithGravity (dictToKeypointsArray p.body) with
    | none => Except.error ScaleErr.keyErr
    | some anchor =>
      match p.body anchor with
      | none => Except.error ScaleErr.keyErr
      | some anchorPos =>
        let scaledK := scaleBody p.body adjusted heightRatio anchor anchorPos
        scaleFace p.face adjusted heightRatio scaledK p.body :
      Except ScaleErr (List (Option Point))) with
  | .ok mutated => mutated
  | .error _ => p.face

/-- The number of joints not yet in the scaled map: together with the queue
length it is the decreasing measure of the BFS loop. -/
def unscaledCount (scaled : Joint → Option Point) : ℕ :=
  (Finset.univ.filter fun j => scaled j = none).card

/-- The BFS loop measure: queue length plus unvisited joints. -/
def bfsMeasure (st : BFSState) : ℕ := st.queue.length + unscaledCount st.scaled

/-- The BFS loop invariant, for a fixed input body, factors, height ratio,
anchor and anchor position, and an arbitrary per-entry predicate `P`
(instantiated with `True` for the reachability results and with
"the entry is the original position" for the self-scale result). -/
structure BFSInv (body : Joint → Option Point) (f : ScalingFactors) (hr : ℚ)
    (anchor : Joint) (anchorPos : Point) (P : Joint → Point → Prop)
    (st : BFSState) : Prop where
  dom_present : ∀ j, (st.scaled j).isSome → (body j).isSome
  dom_reach : ∀ j, (st.scaled j).isSome → CodeReach body anchor j
  anchor_entry : st.scaled anchor = some anchorPos
  queue_dom : ∀ j, j ∈ st.queue → (st.scaled j).isSome
  nodup : st.queue.Nodup
  closed : ∀ u, (st.scaled u).isSome → u ∉ st.queue →
    ∀ c, codeStep body u c → (st.scaled c).isSome
  entry_formula : ∀ j v, st.scaled j = some v →
    (j = anchor ∧ v = anchorPos) ∨ parentWitness body f hr st.scaled j v
  pres : ∀ j v, st.scaled j = some v → P j v

/-- The invariant in the middle of one iteration, while the popped joint
`cur` is being expanded: `cur` is scaled but no longer queued, and closure
is only promised for joints other than `cur`. -/
structure BFSMidInv (body : Joint → Option Point) (f : ScalingFactors)
    (hr : ℚ) (anchor : Joint) (anchorPos : Point) (P : Joint → Point → Prop)
    (cur : Joint) (st : BFSState) : Prop where
  dom_present : ∀ j, (st.scaled j).isSome → (body j).isSome
  dom_reach : ∀ j, (st.scaled j).isSome → CodeReach body anchor j
  anchor_entry : st.scaled anchor = some anchorPos
  queue_dom : ∀ j, j ∈ st.queue → (st.scaled j).isSome
  nodup : st.queue.Nodup
  cur_dom : (st.scaled cur).isSome
  cur_not_queued : cur ∉ st.queue
  closed_other : ∀ u, (st.scaled u).isSome → u ∉ st.queue → u ≠ cur →
    ∀ c, codeStep body u c → (st.scaled c).isSome
  entry_formula : ∀ j v, st.scaled j = some v →
    (j = anchor ∧ v = anchorPos) ∨ parentWitness body f hr st.scaled j v
  pres : ∀ j v, st.scaled j = some v → P j v

/-- The closure property a per-entry predicate must have to survive the
BFS writes. -/
def StepClosed (body : Joint → Option Point) (f : ScalingFactors) (hr : ℚ)
    (P : Joint → Point → Prop) : Prop :=
  ∀ cur conn pv bp bj, P cur pv → conn ∈ adj cur → body cur = some bp →
    body conn = some bj → distSq bp bj > epsSq →
    P conn (stepValue f hr pv bp bj cur conn)

/-- The height ratio of `Pose.scale`, as a function of the resolved input
profile and the target profile (defensively 1 when the input height is not
positive; it always is). -/
def scaleHeightRatio (inAge : Option ℤ) (inGender : Option String)
    (targetAge : ℤ) (targetGender : String) : ℚ :=
  let inputHeight := getHeightByAgeGender (inAge.getD 0) (inGender.getD "female")
  let targetHeight := getHeightByAgeGender targetAge targetGender
  if inputHeight > 0 then targetHeight / inputHeight else 1

/-- The all-ones factor dictionary: what `adjustFactors f f` yields for any
table entry (all entries are positive). -/
def onesFactors : ScalingFactors :=
  { head_ratio := 1, torso_ratio := 1, arm_ratio := 1, leg_ratio := 1,
    hand_ratio := 1, foot_ratio := 1, eye_factor := 1, mouth_factor := 1,
    jaw_factor := 1, nose_factor := 1, face_contour_factor := 1 }

/-- Membership in the canvas rectangle `[0, w] × [0, h]`. -/
def inCanvas (w h : ℚ) (pt : Point) : Prop :=
  0 ≤ pt.1 ∧ pt.1 ≤ w ∧ 0 ≤ pt.2 ∧ pt.2 ≤ h

instance (w h : ℚ) (pt : Point) : Decidable (inCanvas w h pt) := by
  unfold inCanvas
  infer_instance

instance {e a : Type} [DecidableEq e] [DecidableEq a] :
    DecidableEq (Except e a) := fun x y =>
  match x, y with
  | .error u, .error v =>
    if h : u = v then isTrue (by rw [h]) else isFalse (by simp [h])
  | .ok u, .ok v =>
    if h : u = v then isTrue (by rw [h]) else isFalse (by simp [h])
  | .error _, .ok _ => isFalse (by simp)
  | .ok _, .error _ => isFalse (by simp)

instance : DecidableEq Pose := fun p q =>
  decidable_of_iff
    (p.body = q.body ∧ p.face = q.face ∧ p.right_hand = q.right_hand ∧
     p.left_hand = q.left_hand ∧ p.right_foot = q.right_foot ∧
     p.left_foot = q.left_foot ∧ p.canvas_width = q.canvas_width ∧
     p.canvas_height = q.canvas_height ∧ p.input_gender = q.input_gender ∧
     p.input_age = q.input_age)
    (by cases p with
        | mk b f rh lh rf lf cw ch ig ia =>
          cases q with
          | mk b2 f2 rh2 lh2 rf2 lf2 cw2 ch2 ig2 ia2 => simp [Pose.mk.injEq])

/-- The specification's center-of-mass formula with an explicit total mass:
torso center times 0.5 plus each leg center times 0.2, divided by
`totalMass`.  The claim states `totalMass = 0.8`; the code divides by 1. -/
def comSpecFormula (kps : List KP) (confThresh totalMass : ℚ) : Point :=
  let tps := torsoPoints kps confThresh
  let torsoCenter : Point :=
    (listMean (tps.map Prod.fst), listMean (tps.map Prod.snd))
  let legCenter := fun (hipIdx ankleIdx : ℕ) =>
    let hip := kpAt kps hipIdx
    let ankle := kpAt kps ankleIdx
    if hip.2.2 > confThresh ∧ ankle.2.2 > confThresh then
      ((hip.1 + ankle.1) / 2, (hip.2.1 + ankle.2.1) / 2)
    else if hip.2.2 > confThresh then
      (hip.1, hip.2.1)
    else torsoCenter
  let rleg := legCenter 8 10
  let lleg := legCenter 11 13
  ((torsoCenter.1 * (1/2) + rleg.1 * (1/5) + lleg.1 * (1/5)) / totalMass,
   (torsoCenter.2 * (1/2) + rleg.2 * (1/5) + lleg.2 * (1/5)) / totalMass)

/-! ### Concrete inputs used by the per-claim counterexamples and
witnesses -/

/-- C1 counterexample: a pose whose anchor (the neck) lies outside the
canvas. -/
def c1cexPose : Pose :=
  { body := fun j => match j with | .Neck => some (150, 50) | _ => none,
    canvas_width := 100, canvas_height := 100,
    input_gender := some "female", input_age := some 20 }

/-- C1 witness: a pose whose anchor lies inside the canvas. -/
def c1wPose : Pose :=
  { body := fun j => match j with | .Neck => some (50, 50) | _ => none,
    canvas_width := 100, canvas_height := 100,
    input_gender := some "female", input_age := some 20 }


/-- C2: a keypoint array with only the neck visible, at `(8, 8)`. -/
def c2kps : List KP :=
  dictToKeypointsArray
    (fun j => match j with | .Neck => some (8, 8) | _ => none)

/-- C3: a pose with a present face landmark (slot 0 of 70) whose body has
neck and nose, scaled to a different profile so the landmark moves. -/
def c3pose : Pose :=
  { body := fun j =>
      match j with | .Neck => some (0, 0) | .Nose => some (3, 4) | _ => none,
    face := (some (10, 10)) :: List.replicate 69 (none : Option Point),
    canvas_width := 1000, canvas_height := 1000,
    input_gender := some "female", input_age := some 20 }

/-- C4 counterexample: nose present but coincident with the neck anchor
(displacement below the BFS length threshold). -/
def c4cexPose : Pose :=
  { body := fun j =>
      match j with | .Neck => some (0, 0) | .Nose => some (0, 0) | _ => none,
    canvas_width := 100, canvas_height := 100,
    input_gender := some "female", input_age := some 20 }

/-- C4 witness: nose reachable from the neck anchor, right wrist present
but disconnected (elbow and shoulder absent). -/
def c4wPose : Pose :=
  { body := fun j =>
      match j with
      | .Neck => some (0, 0) | .Nose => some (0, 5)
      | .RWrist => some (9, 9) | _ => none,
    canvas_width := 100, canvas_height := 100,
    input_gender := some "female", input_age := some 20 }


/-- C5 counterexample: a self-scale whose anchor starts outside the canvas
and is clamped, so its original coordinates are not reproduced. -/
def c5cexPose : Pose :=
  { body := fun j => match j with | .Neck => some (30, -20) | _ => none,
    canvas_width := 100, canvas_height := 100,
    input_gender := some "female", input_age := some 20 }

/-- C5 witness: a self-scale with the anchor inside the canvas. -/
def c5wPose : Pose :=
  { body := fun j => match j with | .Neck => some (50, 60) | _ => none,
    canvas_width := 100, canvas_height := 100,
    input_gender := some "female", input_age := some 20 }


/-- C6 counterexample: a negative canvas width, on which the clamped
output still falls outside (the empty) `[0, canvas_width]`. -/
def c6cexPose : Pose :=
  { body := fun j => match j with | .Neck => some (5, 5) | _ => none,
    canvas_width := -10, canvas_height := 100,
    input_gender := some "female", input_age := some 20 }

/-- C6 witness: a nonnegative canvas with one out-of-canvas joint and one
absent face slot. -/
def c6wPose : Pose :=
  { body := fun j =>
      match j with | .Neck => some (0, 0) | .Nose => some (0, 200) | _ => none,
    face := [none],
    canvas_width := 100, canvas_height := 100,
    input_gender := some "female", input_age := some 20 }


/-- C7 counterexample: a declared age of 0 (falsy in Python) with a valid
declared gender; the body admits no age guess, so scaling fails instead of
using the declared profile. -/
def c7pose : Pose :=
  { body := fun j => match j with | .Neck => some (0, 0) | _ => none,
    canvas_width := 100, canvas_height := 100,
    input_gender := some "male", input_age := some 0 }

/-- C7 witness: a declared nonzero age and gender. -/
def c7wPose : Pose :=
  { body := fun _ => none,
    canvas_width := 100, canvas_height := 100,
    input_gender := some "female", input_age := some 20 }

/-- C8 witness: a pose with no joints at all and no declared profile. -/
def c8wPose : Pose :=
  { body := fun _ => none, canvas_width := 100, canvas_height := 100 }

/-- C9: a present mouth landmark (slot 50 of 70) with no nose in the body:
the scaled-mouth-center computation indexes the missing Nose key. -/
def c9pose : Pose :=
  { body := fun j => match j with | .Neck => some (50, 50) | _ => none,
    face := List.replicate 48 (none : Option Point) ++ [some (5, 5)] ++
      List.replicate 21 (none : Option Point),
    canvas_width := 100, canvas_height := 100,
    input_gender := some "female", input_age := some 20 }

/-- C10 counterexample: no anchor candidate and no declared profile, so
profile resolution fails before the anchor lookup. -/
def c10cexPose : Pose :=
  { body := fun j => match j with | .Nose => some (1, 2) | _ => none }

/-- C10 witness: no anchor candidate but a resolvable declared profile. -/
def c10wPose : Pose :=
  { body := fun j => match j with | .Nose => some (1, 2) | _ => none,
    canvas_width := 100, canvas_height := 100,
    input_gender := some "female", input_age := some 20 }

/-! ## BFS loop lemmas -/

section BFSLemmas

variable {body : Joint → Option Point} {f : ScalingFactors} {hr : ℚ}
variable {anchor : Joint} {anchorPos : Point} {P : Joint → Point → Prop}

/-- `processConn` never removes or changes an existing entry. -/
theorem processConn_persist {cur conn : Joint} {st : BFSState} {j : Joint}
    {v : Point} (h : st.scaled j = some v) :
    (processConn body f hr cur st conn).scaled j = some v := by
  cases hc : st.scaled conn with
  | some w => simpa [processConn, hc] using h
  | none =>
    cases hb : body conn with
    | none => simpa [processConn, hc, hb] using h
    | some endPos =>
      have hne : j ≠ conn := fun he => by rw [he, hc] at h; exact Option.noConfusion h
      simp only [processConn, hc, hb]
      split
      · simpa [Function.update_apply, hne] using h
      · exact h

/-- Case analysis of `processConn` when the popped joint has a known scaled
position and body position: either nothing happens, or exactly one fresh
neighbor entry is written with the step formula and the neighbor is
enqueued. -/
theorem processConn_cases {cur conn : Joint} {st : BFSState} {pv bp : Point}
    (hcd : st.scaled cur = some pv) (hbp : body cur = some bp) :
    processConn body f hr cur st conn = st ∨
    (st.scaled conn = none ∧ ∃ bj, body conn = some bj ∧ distSq bp bj > epsSq ∧
      processConn body f hr cur st conn =
        { scaled := Function.update st.scaled conn
            (some (stepValue f hr pv bp bj cur conn)),
          queue := st.queue ++ [conn] }) := by
  have hgetD : ((body cur).getD ((0 : ℚ), (0 : ℚ))) = bp := by rw [hbp]; rfl
  have hgetS : ((st.scaled cur).getD ((0 : ℚ), (0 : ℚ))) = pv := by rw [hcd]; rfl
  cases hc : st.scaled conn with
  | some w => left; simp [processConn, hc]
  | none =>
    cases hb : body conn with
    | none => left; simp [processConn, hc, hb]
    | some endPos =>
      simp only [processConn, hc, hb]
      split
      · rename_i hn
        right
        refine ⟨by trivial, endPos, by trivial, ?_, ?_⟩
        · rw [hgetD] at hn
          simpa [distSq] using hn
        · rw [hgetD, hgetS]
          rfl
      · left
        rfl

/-- When the traversed edge satisfies `codeStep`, the neighbor is scaled
after `processConn` (it either already was, or is written now). -/
theorem processConn_covers {cur conn : Joint} {st : BFSState} {bp : Point}
    (hbp : body cur = some bp)
    (hstep : codeStep body cur conn) :
    ((processConn body f hr cur st conn).scaled conn).isSome := by
  obtain ⟨hadj, pu, pc, hbu, hbc, hd⟩ := hstep
  have hpu : bp = pu := by rw [hbp] at hbu; exact (Option.some.injEq _ _).mp hbu
  cases hc : st.scaled conn with
  | some w => simp [processConn, hc]
  | none =>
    have hgetD : ((body cur).getD ((0 : ℚ), (0 : ℚ))) = pu := by
      rw [hbp, hpu]; rfl
    simp only [processConn, hc, hbc]
    split
    · simp [Function.update_apply]
    · rename_i hn
      exfalso
      apply hn
      rw [hgetD]
      simpa [distSq] using hd

/-- `processConn` keeps the loop measure (queue length plus unvisited
count) unchanged: a write trades one unvisited joint for one queue slot. -/
theorem processConn_measure {cur conn : Joint} {st : BFSState} {pv bp : Point}
    (hcd : st.scaled cur = some pv) (hbp : body cur = some bp) :
    bfsMeasure (processConn body f hr cur st conn) = bfsMeasure st := by
  rcases @processConn_cases body f hr cur conn st _ _ hcd hbp with heq | ⟨hnone, bj, hbj, hdj, heq⟩
  · rw [heq]
  · rw [heq]
    unfold bfsMeasure unscaledCount
    have hset : (Finset.univ.filter fun j =>
        Function.update st.scaled conn (some (stepValue f hr pv bp bj cur conn)) j = none) =
        (Finset.univ.filter fun j => st.scaled j = none).erase conn := by
      ext j
      by_cases hj : j = conn
      · subst hj
        simp [Function.update_apply]
      · simp [Function.update_apply, hj]
    have hmem : conn ∈ Finset.univ.filter fun j => st.scaled j = none := by
      simp [hnone]
    simp only [hset, List.length_append, List.length_cons, List.length_nil]
    rw [Finset.card_erase_of_mem hmem]
    have hpos : 0 < (Finset.univ.filter fun j => st.scaled j = none).card :=
      Finset.card_pos.mpr ⟨conn, hmem⟩
    omega

/-- One `processConn` call preserves the mid-iteration invariant. -/
theorem processConn_midInv {cur conn : Joint} {st : BFSState}
    (hconn : conn ∈ adj cur) (hP : StepClosed body f hr P)
    (hm : BFSMidInv body f hr anchor anchorPos P cur st) :
    BFSMidInv body f hr anchor anchorPos P cur
      (processConn body f hr cur st conn) := by
  obtain ⟨pv, hcd⟩ := Option.isSome_iff_exists.mp hm.cur_dom
  obtain ⟨bp, hbp⟩ := Option.isSome_iff_exists.mp (hm.dom_present cur hm.cur_dom)
  rcases @processConn_cases body f hr cur conn st _ _ hcd hbp with
    heq | ⟨hnone, bj, hbj, hdj, heq⟩
  · rw [heq]; exact hm
  · rw [heq]
    have hcurne : cur ≠ conn := fun he => by
      rw [he, hnone] at hcd; exact Option.noConfusion hcd
    have hconnq : conn ∉ st.queue := fun hq => by
      have := hm.queue_dom conn hq
      rw [hnone] at this
      simp at this
    have hanchne : anchor ≠ conn := fun he => by
      have := hm.anchor_entry
      rw [he, hnone] at this
      exact Option.noConfusion this
    have hstepc : codeStep body cur conn := ⟨hconn, bp, bj, hbp, hbj, hdj⟩
    refine ⟨?_, ?_, ?_, ?_, ?_, ?_, ?_, ?_, ?_, ?_⟩
    · intro j hj
      by_cases hje : j = conn
      · subst hje; simp [hbj]
      · simp only [Function.update_apply, if_neg hje] at hj
        exact hm.dom_present j hj
    · intro j hj
      by_cases hje : j = conn
      · subst hje
        exact Relation.ReflTransGen.tail (hm.dom_reach cur hm.cur_dom) hstepc
      · simp only [Function.update_apply, if_neg hje] at hj
        exact hm.dom_reach j hj
    · simp only [Function.update_apply, if_neg hanchne]
      exact hm.anchor_entry
    · intro j hj
      simp only [List.mem_append, List.mem_singleton] at hj
      rcases hj with hj | hj
      · have := hm.queue_dom j hj
        by_cases hje : j = conn
        · subst hje; simp [Function.update_apply]
        · simpa [Function.update_apply, hje] using this
      · subst hj; simp [Function.update_apply]
    · exact List.Nodup.append hm.nodup (List.nodup_singleton conn)
        (by simpa using hconnq)
    · by_cases hje : cur = conn
      · exact absurd hje hcurne
      · simpa [Function.update_apply, hje] using hm.cur_dom
    · intro hq
      simp only [List.mem_append, List.mem_singleton] at hq
      rcases hq with hq | hq
      · exact hm.cur_not_queued hq
      · exact hcurne hq
    · intro u hu huq hune c hc
      by_cases hue : u = conn
      · subst hue
        exfalso
        apply huq
        simp
      · simp only [Function.update_apply, if_neg hue] at hu
        have huq' : u ∉ st.queue := fun h => huq (by simp [h])
        have := hm.closed_other u hu huq' hune c hc
        by_cases hce : c = conn
        · subst hce; simp [Function.update_apply]
        · simpa [Function.update_apply, hce] using this
    · intro j v hj
      by_cases hje : j = conn
      · subst hje
        simp only [Function.update_same, Option.some.injEq] at hj
        right
        exact ⟨cur, pv, bp, bj,
          by simp [Function.update_apply, if_neg hcurne, hcd],
          hconn, hbp, hbj, hdj, hj.symm⟩
      · simp only [Function.update_apply, if_neg hje] at hj
        rcases hm.entry_formula j v hj with hl | ⟨par, pv2, bp2, bj2, hpar, hadj2, hbp2, hbj2, hd2, hv2⟩
        · exact Or.inl hl
        · right
          have hparne : par ≠ conn := fun he => by
            rw [he, hnone] at hpar; exact Option.noConfusion hpar
          exact ⟨par, pv2, bp2, bj2,
            by simpa [Function.update_apply, hparne] using hpar,
            hadj2, hbp2, hbj2, hd2, hv2⟩
    · intro j v hj
      by_cases hje : j = conn
      · subst hje
        simp only [Function.update_same, Option.some.injEq] at hj
        rw [← hj]
        exact hP cur j pv bp bj (hm.pres cur pv hcd) hconn hbp hbj hdj
      · simp only [Function.update_apply, if_neg hje] at hj
        exact hm.pres j v hj

/-- Folding `processConn` over a sublist of the popped joint's adjacency
list preserves the mid-iteration invariant, keeps every existing entry,
covers every `codeStep` neighbor in the sublist, and keeps the measure. -/
theorem foldl_processConn_inv (hP : StepClosed body f hr P) {cur : Joint} :
    ∀ (L : List Joint) (st : BFSState), (∀ c ∈ L, c ∈ adj cur) →
    BFSMidInv body f hr anchor anchorPos P cur st →
    (BFSMidInv body f hr anchor anchorPos P cur
        (L.foldl (processConn body f hr cur) st) ∧
     (∀ j v, st.scaled j = some v →
        (L.foldl (processConn body f hr cur) st).scaled j = some v) ∧
     (∀ c ∈ L, codeStep body cur c →
        ((L.foldl (processConn body f hr cur) st).scaled c).isSome) ∧
     bfsMeasure (L.foldl (processConn body f hr cur) st) = bfsMeasure st) := by
  intro L
  induction L with
  | nil =>
    intro st _ hm
    exact ⟨hm, fun j v h => h, by simp, rfl⟩
  | cons c L ih =>
    intro st hadj hm
    obtain ⟨pv, hcd⟩ := Option.isSome_iff_exists.mp hm.cur_dom
    obtain ⟨bp, hbp⟩ := Option.isSome_iff_exists.mp (hm.dom_present cur hm.cur_dom)
    have hm1 := processConn_midInv (hadj c (List.mem_cons_self c L)) hP hm
    have hadj' : ∀ x ∈ L, x ∈ adj cur := fun x hx =>
      hadj x (List.mem_cons_of_mem c hx)
    obtain ⟨ihInv, ihPersist, ihCovers, ihMeasure⟩ :=
      ih (processConn body f hr cur st c) hadj' hm1
    rw [List.foldl_cons]
    refine ⟨ihInv, ?_, ?_, ?_⟩
    · intro j v h
      exact ihPersist j v (processConn_persist h)
    · intro x hx hstep
      rcases List.mem_cons.mp hx with hxc | hxL
      · subst hxc
        have h1 := @processConn_covers body f hr cur _ st _ hbp hstep
        obtain ⟨w, hw⟩ := Option.isSome_iff_exists.mp h1
        rw [ihPersist x w hw]
        rfl
      · exact ihCovers x hxL hstep
    · rw [ihMeasure, processConn_measure hcd hbp]

/-- The BFS loop invariant, run to completion: given enough fuel (at least
the measure), the loop terminates with an empty queue, keeps every existing
entry, and preserves the invariant. -/
theorem bfsLoopF_inv (hP : StepClosed body f hr P) :
    ∀ (fuel : ℕ) (st : BFSState), bfsMeasure st ≤ fuel →
    BFSInv body f hr anchor anchorPos P st →
    ((∀ j v, st.scaled j = some v → bfsLoopF body f hr fuel st j = some v) ∧
     BFSInv body f hr anchor anchorPos P
       ⟨bfsLoopF body f hr fuel st, []⟩) := by
  intro fuel
  induction fuel with
  | zero =>
    intro st hfuel hinv
    have hq : st.queue = [] := by
      have : st.queue.length = 0 := by
        have := hfuel
        unfold bfsMeasure at this
        omega
      exact List.length_eq_zero.mp this
    constructor
    · intro j v h
      simpa [bfsLoopF] using h
    · refine ⟨hinv.dom_present, hinv.dom_reach, hinv.anchor_entry, ?_, ?_, ?_,
        hinv.entry_formula, hinv.pres⟩
      · intro j hj
        simp at hj
      · exact List.nodup_nil
      · intro u hu _ c hc
        exact hinv.closed u hu (by rw [hq]; simp) c hc
  | succ fuel ih =>
    intro st hfuel hinv
    cases hq : st.queue with
    | nil =>
      have heq : bfsLoopF body f hr (fuel + 1) st = st.scaled := by
        conv_lhs => rw [bfsLoopF]
        rw [hq]
      rw [heq]
      constructor
      · intro j v h
        exact h
      · refine ⟨hinv.dom_present, hinv.dom_reach, hinv.anchor_entry, ?_, ?_, ?_,
          hinv.entry_formula, hinv.pres⟩
        · intro j hj
          simp at hj
        · exact List.nodup_nil
        · intro u hu _ c hc
          exact hinv.closed u hu (by rw [hq]; simp) c hc
    | cons cur rest =>
      have hcurmem : cur ∈ st.queue := by rw [hq]; simp
      have hnodup := hinv.nodup
      rw [hq] at hnodup
      have hm0 : BFSMidInv body f hr anchor anchorPos P cur
          ⟨st.scaled, rest⟩ := by
        refine ⟨hinv.dom_present, hinv.dom_reach, hinv.anchor_entry, ?_, ?_,
          hinv.queue_dom cur hcurmem, ?_, ?_, hinv.entry_formula, hinv.pres⟩
        · intro j hj
          exact hinv.queue_dom j (by rw [hq]; exact List.mem_cons_of_mem cur hj)
        · exact hnodup.of_cons
        · exact (List.nodup_cons.mp hnodup).1
        · intro u hu huq hune c hc
          refine hinv.closed u hu ?_ c hc
          rw [hq]
          intro hmem
          rcases List.mem_cons.mp hmem with h | h
          · exact hune h
          · exact huq h
      obtain ⟨foldInv, foldPersist, foldCovers, foldMeasure⟩ :=
        foldl_processConn_inv hP (adj cur) ⟨st.scaled, rest⟩
          (fun c hc => hc) hm0
      set st' := (adj cur).foldl (processConn body f hr cur)
        ⟨st.scaled, rest⟩ with hst'
      have hinv' : BFSInv body f hr anchor anchorPos P st' := by
        refine ⟨foldInv.dom_present, foldInv.dom_reach, foldInv.anchor_entry,
          foldInv.queue_dom, foldInv.nodup, ?_, foldInv.entry_formula,
          foldInv.pres⟩
        intro u hu huq c hc
        by_cases hue : u = cur
        · subst hue
          exact foldCovers c hc.1 hc
        · exact foldInv.closed_other u hu huq hue c hc
      have hmeas' : bfsMeasure st' ≤ fuel := by
        rw [foldMeasure]
        have : bfsMeasure st = bfsMeasure ⟨st.scaled, rest⟩ + 1 := by
          unfold bfsMeasure
          rw [hq]
          simp
          omega
        omega
      obtain ⟨loopPersist, loopInv⟩ := ih st' hmeas' hinv'
      have hunfold : bfsLoopF body f hr (fuel + 1) st =
          bfsLoopF body f hr fuel st' := by
        rw [hst']
        conv_lhs => rw [bfsLoopF]
        rw [hq]
      constructor
      · intro j v h
        rw [hunfold]
        exact loopPersist j v (foldPersist j v h)
      · rw [hunfold]
        exact loopInv

/-- The initial scaled map (anchor only) leaves 17 joints unvisited. -/
theorem unscaledCount_init (anchor : Joint) (apt : Point) :
    unscaledCount (Function.update (fun _ => none) anchor (some apt)) = 17 := by
  unfold unscaledCount
  have hset : (Finset.univ.filter fun j =>
      Function.update (fun _ : Joint => (none : Option Point)) anchor
        (some apt) j = none) = Finset.univ.erase anchor := by
    ext j
    by_cases hj : j = anchor
    · subst hj
      simp [Function.update_same]
    · simp [Function.update_apply, hj]
  rw [hset, Finset.card_erase_of_mem (Finset.mem_univ _)]
  rfl

/-- The BFS run inside `Pose.scale`, characterised: the final map carries
the invariant (with an empty queue, so closure is unconditional), and the
anchor keeps its original position. -/
theorem scaleBody_inv (hanch : body anchor = some anchorPos)
    (hP0 : P anchor anchorPos) (hP : StepClosed body f hr P) :
    BFSInv body f hr anchor anchorPos P
      ⟨scaleBody body f hr anchor anchorPos, []⟩ ∧
    scaleBody body f hr anchor anchorPos anchor = some anchorPos := by
  have hinit : BFSInv body f hr anchor anchorPos P
      ⟨Function.update (fun _ => none) anchor (some anchorPos), [anchor]⟩ := by
    refine ⟨?_, ?_, ?_, ?_, ?_, ?_, ?_, ?_⟩
    · intro j hj
      by_cases hje : j = anchor
      · subst hje; simp [hanch]
      · simp [Function.update_apply, hje] at hj
    · intro j hj
      by_cases hje : j = anchor
      · subst hje; exact Relation.ReflTransGen.refl
      · simp [Function.update_apply, hje] at hj
    · simp [Function.update_same]
    · intro j hj
      simp only [List.mem_singleton] at hj
      subst hj
      simp [Function.update_same]
    · exact List.nodup_singleton anchor
    · intro u hu huq c hc
      by_cases hue : u = anchor
      · subst hue
        exact absurd (List.mem_singleton_self u) huq
      · simp [Function.update_apply, hue] at hu
    · intro j v hj
      by_cases hje : j = anchor
      · subst hje
        simp only [Function.update_same, Option.some.injEq] at hj
        exact Or.inl ⟨rfl, hj.symm⟩
      · simp [Function.update_apply, hje] at hj
    · intro j v hj
      by_cases hje : j = anchor
      · subst hje
        simp only [Function.update_same, Option.some.injEq] at hj
        rw [← hj]
        exact hP0
      · simp [Function.update_apply, hje] at hj
  have hmeas : bfsMeasure
      ⟨Function.update (fun _ => none) anchor (some anchorPos), [anchor]⟩ ≤ 18 := by
    unfold bfsMeasure
    rw [unscaledCount_init]
    simp
  obtain ⟨hpers, hinv⟩ := bfsLoopF_inv hP 18 _ hmeas hinit
  refine ⟨hinv, ?_⟩
  exact hpers anchor anchorPos (by simp [Function.update_same])

/-- Membership in the scaled skeleton is exactly code-reachability from the
anchor (presence is part of every `codeStep`, and holds for the anchor by
assumption). -/
theorem scaleBody_isSome_iff (hanch : body anchor = some anchorPos) (j : Joint) :
    (scaleBody body f hr anchor anchorPos j).isSome ↔ CodeReach body anchor j := by
  have h := scaleBody_inv hanch trivial
    (show StepClosed body f hr fun _ _ => True from
      fun _ _ _ _ _ _ _ _ _ _ => trivial)
  constructor
  · intro hj
    exact h.1.dom_reach j hj
  · intro hreach
    induction hreach with
    | refl =>
      rw [h.2]
      rfl
    | tail hprev hstep ih =>
      exact h.1.closed _ ih (by simp) _ hstep

end BFSLemmas

/-! ## Inversion of a successful `Pose.scale` call -/

/-- A successful `Pose.scale` call determines all its intermediate values:
the resolved profile, both factor tables, the anchor and its position, the
scaled face, and every component of the returned pose. -/
theorem scale_ok_inversion {p : Pose} {tg : String} {ta : ℤ} {q : Pose}
    (h : p.scale tg ta = .ok q) :
    ∃ inAge inF tF anchor anchorPos newFace,
      resolveInputAge p = .ok inAge ∧
      getScalingFactorsO inAge (resolveInputGender p) = .ok inF ∧
      getScalingFactorsO (some ta) (some tg) = .ok tF ∧
      chooseMainSupportWithGravity (dictToKeypointsArray p.body) = some anchor ∧
      p.body anchor = some anchorPos ∧
      scaleFace p.face (adjustFactors tF inF)
        (scaleHeightRatio inAge (resolveInputGender p) ta tg)
        (scaleBody p.body (adjustFactors tF inF)
          (scaleHeightRatio inAge (resolveInputGender p) ta tg) anchor anchorPos)
        p.body = .ok newFace ∧
      q.body = (fun j =>
        ((scaleBody p.body (adjustFactors tF inF)
            (scaleHeightRatio inAge (resolveInputGender p) ta tg) anchor anchorPos) j).map
          (cropPoint p.canvas_width p.canvas_height)) ∧
      q.face = newFace.map (Option.map (cropPoint p.canvas_width p.canvas_height)) ∧
      q.left_hand = (scaleAndAlignPoints p.left_hand
          ((adjustFactors tF inF).hand_ratio *
            scaleHeightRatio inAge (resolveInputGender p) ta tg)
          ((scaleBody p.body (adjustFactors tF inF)
            (scaleHeightRatio inAge (resolveInputGender p) ta tg) anchor anchorPos) .LWrist)
          (p.body .LWrist)).map
        (Option.map (cropPoint p.canvas_width p.canvas_height)) ∧
      q.right_hand = (scaleAndAlignPoints p.right_hand
          ((adjustFactors tF inF).hand_ratio *
            scaleHeightRatio inAge (resolveInputGender p) ta tg)
          ((scaleBody p.body (adjustFactors tF inF)
            (scaleHeightRatio inAge (resolveInputGender p) ta tg) anchor anchorPos) .RWrist)
          (p.body .RWrist)).map
        (Option.map (cropPoint p.canvas_width p.canvas_height)) ∧
      q.left_foot = (scaleAndAlignPoints p.left_foot
          ((adjustFactors tF inF).foot_ratio *
            scaleHeightRatio inAge (resolveInputGender p) ta tg)
          ((scaleBody p.body (adjustFactors tF inF)
            (scaleHeightRatio inAge (resolveInputGender p) ta tg) anchor anchorPos) .LAnkle)
          (p.body .LAnkle)).map
        (Option.map (cropPoint p.canvas_width p.canvas_height)) ∧
      q.right_foot = (scaleAndAlignPoints p.right_foot
          ((adjustFactors tF inF).foot_ratio *
            scaleHeightRatio inAge (resolveInputGender p) ta tg)
          ((scaleBody p.body (adjustFactors tF inF)
            (scaleHeightRatio inAge (resolveInputGender p) ta tg) anchor anchorPos) .RAnkle)
          (p.body .RAnkle)).map
        (Option.map (cropPoint p.canvas_width p.canvas_height)) ∧
      q.canvas_width = p.canvas_width ∧
      q.canvas_height = p.canvas_height ∧
      q.input_gender = some tg ∧
      q.input_age = some ta := by
  unfold Pose.scale at h
  cases hra : resolveInputAge p with
  | error e => rw [hra] at h; exact Except.noConfusion h
  | ok inAge =>
    rw [hra] at h
    simp only [Bind.bind, Except.bind] at h
    cases hgf : getScalingFactorsO inAge (resolveInputGender p) with
    | error e => rw [hgf] at h; exact Except.noConfusion h
    | ok inF =>
      rw [hgf] at h
      simp only [Bind.bind, Except.bind] at h
      cases htf : getScalingFactorsO (some ta) (some tg) with
      | error e => rw [htf] at h; exact Except.noConfusion h
      | ok tF =>
        rw [htf] at h
        simp only [Bind.bind, Except.bind] at h
        cases hch : chooseMainSupportWithGravity (dictToKeypointsArray p.body) with
        | none => rw [hch] at h; exact Except.noConfusion h
        | some anchor =>
          rw [hch] at h
          simp only at h
          cases hba : p.body anchor with
          | none => rw [hba] at h; exact Except.noConfusion h
          | some anchorPos =>
            rw [hba] at h
            simp only [Bind.bind, Except.bind] at h
            cases hsf : scaleFace p.face (adjustFactors tF inF)
                (scaleHeightRatio inAge (resolveInputGender p) ta tg)
                (scaleBody p.body (adjustFactors tF inF)
                  (scaleHeightRatio inAge (resolveInputGender p) ta tg)
                  anchor anchorPos) p.body with
            | error e =>
              rw [show scaleHeightRatio inAge (resolveInputGender p) ta tg =
                (if getHeightByAgeGender (inAge.getD 0)
                    ((resolveInputGender p).getD "female") > 0 then
                  getHeightByAgeGender ta tg /
                    getHeightByAgeGender (inAge.getD 0)
                      ((resolveInputGender p).getD "female")
                else 1) from rfl] at hsf
              rw [hsf] at h
              exact Except.noConfusion h
            | ok newFace =>
              rw [show scaleHeightRatio inAge (resolveInputGender p) ta tg =
                (if getHeightByAgeGender (inAge.getD 0)
                    ((resolveInputGender p).getD "female") > 0 then
                  getHeightByAgeGender ta tg /
                    getHeightByAgeGender (inAge.getD 0)
                      ((resolveInputGender p).getD "female")
                else 1) from rfl] at hsf
              rw [hsf] at h
              simp only [Except.ok.injEq] at h
              subst h
              refine ⟨inAge, inF, tF, anchor, anchorPos, newFace, rfl, hgf, rfl,
                rfl, hba, ?_, rfl, rfl, rfl, rfl, rfl, rfl, rfl, rfl, rfl, rfl⟩
              rw [show scaleHeightRatio inAge (resolveInputGender p) ta tg =
                (if getHeightByAgeGender (inAge.getD 0)
                    ((resolveInputGender p).getD "female") > 0 then
                  getHeightByAgeGender ta tg /
                    getHeightByAgeGender (inAge.getD 0)
                      ((resolveInputGender p).getD "female")
                else 1) from rfl]
              exact hsf

/-! ## Helper lemmas: cropping, landmark lists, the factor tables -/

/-- A cropped point always lies in the canvas rectangle, provided the
rectangle exists (nonnegative bounds). -/
theorem cropPoint_inCanvas {w h : ℚ} (hw : 0 ≤ w) (hh : 0 ≤ h) (pt : Point) :
    inCanvas w h (cropPoint w h pt) := by
  unfold inCanvas cropPoint
  refine ⟨le_max_left _ _, ?_, le_max_left _ _, ?_⟩
  · exact max_le hw (min_le_left _ _)
  · exact max_le hh (min_le_left _ _)

/-- Cropping is the identity on points already in the canvas rectangle. -/
theorem cropPoint_id {w h : ℚ} {pt : Point} (hpt : inCanvas w h pt) :
    cropPoint w h pt = pt := by
  obtain ⟨h1, h2, h3, h4⟩ := hpt
  unfold cropPoint
  rw [min_eq_right h2, max_eq_right h1, min_eq_right h4, max_eq_right h3]

/-- Reading a slot of an option-mapped landmark list. -/
theorem getD_map_option {l : List (Option Point)} {g : Point → Point}
    (i : ℕ) :
    (l.map (Option.map g)).getD i none = Option.map g (l.getD i none) := by
  rw [List.getD_eq_getElem?_getD, List.getD_eq_getElem?_getD,
    List.getElem?_map]
  cases l[i]? with
  | none => rfl
  | some p => rfl

/-- `scaleRegion` preserves the list length. -/
theorem scaleRegion_length (face : List (Option Point)) (indices : List ℕ)
    (sb ob : Option Point) (factor hrv : ℚ) :
    (scaleRegion face indices sb ob factor hrv).length = face.length := by
  unfold scaleRegion
  cases sb with
  | none => rfl
  | some s =>
    cases ob with
    | none => rfl
    | some o => exact List.length_mapIdx

/-- `scaleRegion` preserves absent slots. -/
theorem scaleRegion_none (face : List (Option Point)) (indices : List ℕ)
    (sb ob : Option Point) (factor hrv : ℚ) (i : ℕ)
    (h : face.getD i none = none) :
    (scaleRegion face indices sb ob factor hrv).getD i none = none := by
  unfold scaleRegion
  cases sb with
  | none => exact h
  | some s =>
    cases ob with
    | none => exact h
    | some o =>
      rw [List.getD_eq_getElem?_getD, List.getElem?_mapIdx]
      rw [List.getD_eq_getElem?_getD] at h
      cases hl : face[i]? with
      | none => rfl
      | some p =>
        rw [hl] at h
        simp only [Option.getD_some] at h
        subst h
        simp

/-- A successful `scaleFace` preserves the length of the face list and all
its absent slots. -/
theorem scaleFace_ok_preserves {face : List (Option Point)}
    {f : ScalingFactors} {hrv : ℚ} {scaled original : Joint → Option Point}
    {nf : List (Option Point)}
    (h : scaleFace face f hrv scaled original = .ok nf) :
    nf.length = face.length ∧
    ∀ i, face.getD i none = none → nf.getD i none = none := by
  unfold scaleFace at h
  by_cases hg : face = [] ∨ face.all (fun p => p = none)
  · rw [if_pos hg] at h
    simp only [Except.ok.injEq] at h
    subst h
    exact ⟨rfl, fun i hi => hi⟩
  · rw [if_neg hg] at h
    cases hmc : calcMouthCenter face with
    | error e => rw [hmc] at h; exact Except.noConfusion h
    | ok mc =>
      rw [hmc] at h
      simp only [Bind.bind, Except.bind] at h
      cases mc with
      | none =>
        simp only [pure, Except.pure, Except.ok.injEq] at h
        subst h
        constructor
        · simp only [scaleRegion_length]
        · intro i hi
          iterate 8 apply scaleRegion_none
          exact hi
      | some mcv =>
        cases hsn : scaled .Nose with
        | none => rw [hsn] at h; exact Except.noConfusion h
        | some sn =>
          rw [hsn] at h
          cases hon : original .Nose with
          | none => rw [hon] at h; exact Except.noConfusion h
          | some onv =>
            rw [hon] at h
            simp only [pure, Except.pure, Except.ok.injEq] at h
            subst h
            constructor
            · simp only [scaleRegion_length]
            · intro i hi
              iterate 8 apply scaleRegion_none
              exact hi

/-- Every hand/foot cluster scaling preserves length and absent slots. -/
theorem scaleAndAlignPoints_preserves (points : List (Option Point))
    (factor : ℚ) (sb ob : Option Point) :
    (scaleAndAlignPoints points factor sb ob).length = points.length ∧
    ∀ i, points.getD i none = none →
      (scaleAndAlignPoints points factor sb ob).getD i none = none := by
  cases points with
  | nil => cases sb <;> cases ob <;> exact ⟨rfl, fun i hi => hi⟩
  | cons p ps =>
    cases sb with
    | none => cases ob <;> exact ⟨rfl, fun i hi => hi⟩
    | some s =>
      cases ob with
      | none => exact ⟨rfl, fun i hi => hi⟩
      | some o =>
        refine ⟨List.length_map _ _, ?_⟩
        intro i hi
        have := getD_map_option (l := p :: ps)
          (g := fun pt =>
            (s.1 + (pt.1 - o.1) * factor, s.2 + (pt.2 - o.2) * factor)) i
        unfold scaleAndAlignPoints
        rw [this, hi]
        rfl

/-- Positivity distributes over an if-then-else of rationals. -/
theorem ite_pos_rat (c : Prop) [Decidable c] {a b : ℚ} (ha : 0 < a)
    (hb : 0 < b) : 0 < if c then a else b := by
  split
  · exact ha
  · exact hb

/-- Every height in the table is positive. -/
theorem heightData_pos (gender : String) (age : ℤ) :
    0 < heightData gender age := by
  unfold heightData
  repeat' apply ite_pos_rat
  all_goals norm_num

theorem getHeightByAgeGender_pos (age : ℤ) (gender : String) :
    0 < getHeightByAgeGender age gender := by
  unfold getHeightByAgeGender
  repeat' apply ite_pos_rat
  all_goals norm_num

/-- Positivity of every field distributes over an if-then-else of factor
tables. -/
theorem ite_pos_factors (c : Prop) [Decidable c] {s t : ScalingFactors}
    (hs : 0 < s.head_ratio ∧ 0 < s.torso_ratio ∧ 0 < s.arm_ratio ∧
      0 < s.leg_ratio ∧ 0 < s.hand_ratio ∧ 0 < s.foot_ratio ∧
      0 < s.eye_factor ∧ 0 < s.mouth_factor ∧ 0 < s.jaw_factor ∧
      0 < s.nose_factor ∧ 0 < s.face_contour_factor)
    (ht : 0 < t.head_ratio ∧ 0 < t.torso_ratio ∧ 0 < t.arm_ratio ∧
      0 < t.leg_ratio ∧ 0 < t.hand_ratio ∧ 0 < t.foot_ratio ∧
      0 < t.eye_factor ∧ 0 < t.mouth_factor ∧ 0 < t.jaw_factor ∧
      0 < t.nose_factor ∧ 0 < t.face_contour_factor) :
    0 < (if c then s else t).head_ratio ∧
    0 < (if c then s else t).torso_ratio ∧
    0 < (if c then s else t).arm_ratio ∧
    0 < (if c then s else t).leg_ratio ∧
    0 < (if c then s else t).hand_ratio ∧
    0 < (if c then s else t).foot_ratio ∧
    0 < (if c then s else t).eye_factor ∧
    0 < (if c then s else t).mouth_factor ∧
    0 < (if c then s else t).jaw_factor ∧
    0 < (if c then s else t).nose_factor ∧
    0 < (if c then s else t).face_contour_factor := by
  split
  · exact hs
  · exact ht

/-- All eleven entries of the age-range table are positive. -/
theorem ageRangeFactors_pos (age : ℤ) :
    0 < (ageRangeFactors age).head_ratio ∧
    0 < (ageRangeFactors age).torso_ratio ∧
    0 < (ageRangeFactors age).arm_ratio ∧
    0 < (ageRangeFactors age).leg_ratio ∧
    0 < (ageRangeFactors age).hand_ratio ∧
    0 < (ageRangeFactors age).foot_ratio ∧
    0 < (ageRangeFactors age).eye_factor ∧
    0 < (ageRangeFactors age).mouth_factor ∧
    0 < (ageRangeFactors age).jaw_factor ∧
    0 < (ageRangeFactors age).nose_factor ∧
    0 < (ageRangeFactors age).face_contour_factor := by
  unfold ageRangeFactors scalingFactorsBase
  repeat' apply ite_pos_factors
  all_goals norm_num

/-- All eleven entries of the factor table are positive, at every age and
gender. -/
theorem scalingTable_pos (age : ℤ) (gender : String) :
    0 < (scalingTable age gender).head_ratio ∧
    0 < (scalingTable age gender).torso_ratio ∧
    0 < (scalingTable age gender).arm_ratio ∧
    0 < (scalingTable age gender).leg_ratio ∧
    0 < (scalingTable age gender).hand_ratio ∧
    0 < (scalingTable age gender).foot_ratio ∧
    0 < (scalingTable age gender).eye_factor ∧
    0 < (scalingTable age gender).mouth_factor ∧
    0 < (scalingTable age gender).jaw_factor ∧
    0 < (scalingTable age gender).nose_factor ∧
    0 < (scalingTable age gender).face_contour_factor := by
  obtain ⟨h1, h2, h3, h4, h5, h6, h7, h8, h9, h10, h11⟩ :=
    ageRangeFactors_pos age
  unfold scalingTable applyGenderFactors
  split
  · refine ⟨h1, h2, h3, h4, h5, h6, h7, ?_, ?_, h10, ?_⟩
    · exact mul_pos h8 (by norm_num)
    · exact mul_pos h9 (by norm_num)
    · exact mul_pos h11 (by norm_num)
  · exact ⟨h1, h2, h3, h4, h5, h6, h7, h8, h9, h10, h11⟩

/-- Dividing any factor table with positive entries by itself gives the
all-ones table. -/
theorem adjustFactors_self (age : ℤ) (gender : String) :
    adjustFactors (scalingTable age gender) (scalingTable age gender) =
      onesFactors := by
  obtain ⟨h1, h2, h3, h4, h5, h6, h7, h8, h9, h10, h11⟩ :=
    scalingTable_pos age gender
  unfold adjustFactors onesFactors
  congr 1 <;> exact div_self (by positivity)

/-- Every edge factor of the all-ones table is one. -/
theorem getEdgeFactor_ones (a b : Joint) : getEdgeFactor a b onesFactors = 1 := by
  revert a b
  decide

/-- Inverting a successful factor lookup: both arguments were `some`, the
gender is valid, the age is in range, and the result is the table entry. -/
theorem getScalingFactorsO_ok {age : Option ℤ} {gender : Option String}
    {res : ScalingFactors}
    (h : getScalingFactorsO age gender = .ok res) :
    ∃ a g, age = some a ∧ gender = some g ∧ (g = "male" ∨ g = "female") ∧
      0 ≤ a ∧ a ≤ 120 ∧ res = scalingTable a g := by
  unfold getScalingFactorsO at h
  split at h
  next => exact Except.noConfusion h
  next g =>
    split at h
    next hg => exact Except.noConfusion h
    next hg =>
      split at h
      next => exact Except.noConfusion h
      next a =>
        split at h
        next ha => exact Except.noConfusion h
        next ha =>
          simp only [Except.ok.injEq] at h
          push_neg at hg ha
          refine ⟨a, g, rfl, rfl, ?_, ha.1, ha.2, h.symm⟩
          by_cases hm : g = "male"
          · exact Or.inl hm
          · exact Or.inr (hg hm)

/-- A factor lookup with a valid gender and an in-range age succeeds with
the table entry. -/
theorem getScalingFactorsO_valid (a : ℤ) (g : String)
    (hg : g = "male" ∨ g = "female") (har : 0 ≤ a ∧ a ≤ 120) :
    getScalingFactorsO (some a) (some g) = .ok (scalingTable a g) := by
  simp only [getScalingFactorsO]
  have hgv : ¬(g ≠ "male" ∧ g ≠ "female") := by
    rcases hg with h | h <;> subst h <;> simp
  rw [if_neg hgv, if_neg (not_not_intro har)]

/-- A declared, truthy (nonzero) input age resolves to itself. -/
theorem resolveInputAge_declared (p : Pose) (a : ℤ)
    (hage : p.input_age = some a) (ha : a ≠ 0) :
    resolveInputAge p = .ok (some a) := by
  unfold resolveInputAge
  rw [hage]
  simp [intOptTruthy, ha]

/-- A declared, truthy (nonempty) input gender resolves to itself. -/
theorem resolveInputGender_declared (p : Pose) (g : String)
    (hgen : p.input_gender = some g) (hg : g ≠ "") :
    resolveInputGender p = some g := by
  unfold resolveInputGender
  rw [hgen]
  simp [strOptTruthy, hg]

/-- The identity step-closure: with all-ones factors and height ratio 1,
every BFS write reproduces the neighbor's original position. -/
theorem stepClosed_identity (body : Joint → Option Point) :
    StepClosed body onesFactors 1 (fun j v => body j = some v) := by
  intro cur conn pv bp bj hP hadj hbp hbj hd
  have hpv : pv = bp := by
    rw [hP] at hbp
    exact (Option.some.injEq _ _).mp hbp
  subst hpv
  rw [hbj]
  unfold stepValue
  rw [getEdgeFactor_ones]
  norm_num

/-- The trivial step-closure. -/
theorem stepClosed_trivial (body : Joint → Option Point) (f : ScalingFactors)
    (hr : ℚ) : StepClosed body f hr (fun _ _ => True) :=
  fun _ _ _ _ _ _ _ _ _ _ => trivial

/-- Scaling a profile to itself gives a height ratio of exactly one. -/
theorem scaleHeightRatio_self (a : ℤ) (g : String) :
    scaleHeightRatio (some a) (some g) a g = 1 := by
  unfold scaleHeightRatio
  simp only [Option.getD_some]
  rw [if_pos (getHeightByAgeGender_pos a g)]
  exact div_self (ne_of_gt (getHeightByAgeGender_pos a g))

/-- `scaleRegion` leaves a slot whose index is outside the region
untouched. -/
theorem scaleRegion_getD_not_mem (face : List (Option Point))
    (indices : List ℕ) (sb ob : Option Point) (factor hrv : ℚ) (i : ℕ)
    (h : i ∉ indices) :
    (scaleRegion face indices sb ob factor hrv).getD i none =
      face.getD i none := by
  unfold scaleRegion
  cases sb with
  | none => rfl
  | some s =>
    cases ob with
    | none => rfl
    | some o =>
      rw [List.getD_eq_getElem?_getD, List.getElem?_mapIdx,
        List.getD_eq_getElem?_getD]
      cases face[i]? with
      | none => rfl
      | some p => simp [h]

/-- `scaleRegion` on a slot inside the region, with both bases present:
the present point moves by the region formula. -/
theorem scaleRegion_getD_mem (face : List (Option Point)) (indices : List ℕ)
    (sb ob : Point) (factor hrv : ℚ) (i : ℕ) (h : i ∈ indices) (pt : Point)
    (hpt : face.getD i none = some pt) :
    (scaleRegion face indices (some sb) (some ob) factor hrv).getD i none =
      some (sb.1 + (pt.1 - ob.1) * factor * hrv,
            sb.2 + (pt.2 - ob.2) * factor * hrv) := by
  unfold scaleRegion
  rw [List.getD_eq_getElem?_getD, List.getElem?_mapIdx]
  rw [List.getD_eq_getElem?_getD] at hpt
  cases hfi : face[i]? with
  | none =>
    rw [hfi] at hpt
    exact Option.noConfusion hpt
  | some p =>
    rw [hfi] at hpt
    have hp : p = some pt := hpt
    subst hp
    simp [h]

/-- `scale_face` on a face whose guard fails and whose mouth landmarks are
all absent: no KeyError is possible and the result is the eight region
passes, the mouth pass having no base. -/
theorem scaleFace_no_mouth {face : List (Option Point)} (f : ScalingFactors)
    (hrv : ℚ) (scaled original : Joint → Option Point)
    (hguard : ¬(face = [] ∨ face.all (fun p => p = none)))
    (hmc : calcMouthCenter face = .ok none) :
    scaleFace face f hrv scaled original = .ok
      (scaleRegion (scaleRegion (scaleRegion (scaleRegion (scaleRegion
        (scaleRegion (scaleRegion (scaleRegion face faceContourIdx
          (scaled .Nose) (original .Nose) f.face_contour_factor hrv)
          jawIdx (scaled .Nose) (original .Nose) f.jaw_factor hrv)
          rightEyebrowIdx (scaled .REye) (original .REye) f.eye_factor hrv)
          leftEyebrowIdx (scaled .LEye) (original .LEye) f.eye_factor hrv)
          noseIdx (scaled .Nose) (original .Nose) f.nose_factor hrv)
          rightEyeIdx (scaled .REye) (original .REye) f.eye_factor hrv)
          leftEyeIdx (scaled .LEye) (original .LEye) f.eye_factor hrv)
          mouthIdx none none f.mouth_factor hrv) := by
  unfold scaleFace
  rw [if_neg hguard]
  simp only [Bind.bind, Except.bind]
  rw [hmc]
  rfl

/-- `scale_face` on a face with a present mouth landmark but an absent
scaled Nose: the unguarded dictionary access for the scaled mouth center
raises KeyError. -/
theorem scaleFace_missing_nose {face : List (Option Point)}
    (f : ScalingFactors) (hrv : ℚ) (scaled original : Joint → Option Point)
    (hguard : ¬(face = [] ∨ face.all (fun p => p = none)))
    {mc : Point} (hmc : calcMouthCenter face = .ok (some mc))
    (hsn : scaled .Nose = none) :
    scaleFace face f hrv scaled original = .error .keyErr := by
  unfold scaleFace
  rw [if_neg hguard]
  simp only [Bind.bind, Except.bind]
  rw [hmc, hsn]

/-- When a joint is present, adjacent to the anchor, farther than the
length threshold, distinct from the anchor, and the anchor is its only
present neighbor, the BFS writes exactly the single-step value for it. -/
theorem scaleBody_unique_step {body : Joint → Option Point}
    {f : ScalingFactors} {hr : ℚ} {anchor child : Joint} {apos cpos : Point}
    (hanch : body anchor = some apos)
    (hchild : body child = some cpos)
    (hadj : child ∈ adj anchor)
    (hd : distSq apos cpos > epsSq)
    (hne : child ≠ anchor)
    (hpar : ∀ par bp, body par = some bp → child ∈ adj par → par = anchor) :
    scaleBody body f hr anchor apos child =
      some (stepValue f hr apos apos cpos anchor child) := by
  have hinv := scaleBody_inv hanch trivial (stepClosed_trivial body f hr)
  have hreach : CodeReach body anchor child :=
    Relation.ReflTransGen.single ⟨hadj, apos, cpos, hanch, hchild, hd⟩
  have hsome : (scaleBody body f hr anchor apos child).isSome :=
    (scaleBody_isSome_iff hanch child).mpr hreach
  obtain ⟨v, hv⟩ := Option.isSome_iff_exists.mp hsome
  rcases hinv.1.entry_formula child v hv with ⟨hca, _⟩ |
    ⟨par, pv, bp, bj, hparv, hadj2, hbp, hbj, _, hv2⟩
  · exact absurd hca hne
  · have hpa : par = anchor := hpar par bp hbp hadj2
    rw [hpa] at hparv hbp hv2
    have hpv : pv = apos := (Option.some.injEq _ _).mp (hparv.symm.trans hinv.2)
    have hbp2 : bp = apos := (Option.some.injEq _ _).mp (hbp.symm.trans hanch)
    have hbj2 : bj = cpos :=
      (Option.some.injEq _ _).mp (hbj.symm.trans hchild)
    rw [hpv, hbp2, hbj2] at hv2
    rw [hv, hv2]

/-- Driving the mutation model through a successful resolution: once the
profile, anchor and `scale_face` results are known, the caller's face list
after the call is the `scale_face` result. -/
theorem faceAfterScale_eq {p : Pose} {tg : String} {ta : ℤ}
    {inAge : Option ℤ} {ig : Option String} {inF tF : ScalingFactors}
    {anchor : Joint} {apos : Point} {nf : List (Option Point)}
    (hra : resolveInputAge p = .ok inAge)
    (hrg : resolveInputGender p = ig)
    (hgf : getScalingFactorsO inAge ig = .ok inF)
    (htf : getScalingFactorsO (some ta) (some tg) = .ok tF)
    (hch : chooseMainSupportWithGravity (dictToKeypointsArray p.body) =
      some anchor)
    (hba : p.body anchor = some apos)
    (hsf : scaleFace p.face (adjustFactors tF inF)
      (scaleHeightRatio inAge ig ta tg)
      (scaleBody p.body (adjustFactors tF inF)
        (scaleHeightRatio inAge ig ta tg) anchor apos) p.body = .ok nf) :
    faceAfterScale p tg ta = nf := by
  unfold faceAfterScale
  rw [hra]
  simp only [Bind.bind, Except.bind]
  rw [hrg, hgf, htf]
  simp only [Bind.bind, Except.bind]
  rw [hch]
  simp only []
  rw [hba]
  simp only []
  rw [show scaleHeightRatio inAge ig ta tg =
    (if getHeightByAgeGender (inAge.getD 0) (ig.getD "female") > 0 then
      getHeightByAgeGender ta tg /
        getHeightByAgeGender (inAge.getD 0) (ig.getD "female")
    else 1) from rfl] at hsf
  rw [hsf]

/-! ## The claims -/

/-- C2 (corrected): for every keypoint array with at least one torso point,
`estimate_COM` returns the weighted sum `torso×0.5 + rleg×0.2 + lleg×0.2`
divided by the total mass `0.5 + 0.2 + 0.2 + 0.1 = 1.0` — not by `0.8` as
the claim states; the declared 0.1 arm share enters the denominator but is
never sampled into the numerator. -/
theorem C2_com_total_mass (kps : List KP) (confThresh : ℚ)
    (h : torsoPoints kps confThresh ≠ []) :
    estimateCOM kps confThresh =
      comSpecFormula kps confThresh ((1/2) + (1/5) + (1/5) + (1/10)) := by
  unfold estimateCOM comSpecFormula
  rw [if_neg h]

/-- C2 witness: a keypoint array with only the neck visible, at `(8, 8)`. -/
theorem C2_com_total_mass_witness :
    torsoPoints c2kps (1/10) ≠ [] ∧
    estimateCOM c2kps (1/10) =
      comSpecFormula c2kps (1/10) ((1/2) + (1/5) + (1/5) + (1/10)) := by
  have ht : torsoPoints c2kps (1/10) = [(8, 8)] := by
    norm_num [torsoPoints, c2kps, dictToKeypointsArray, cocoOrder, kpAt,
      estimateMidhip, List.filterMap]
  have hne : torsoPoints c2kps (1/10) ≠ [] := by rw [ht]; simp
  exact ⟨hne, C2_com_total_mass c2kps (1/10) hne⟩

/-- C2 counterexample: on the neck-only array the code returns
`(7.2, 7.2)` (the weighted sum divided by 1.0), which differs from the
claimed division by 0.8 (that would be `(9, 9)`). -/
theorem C2_com_cex :
    estimateCOM c2kps (1/10) = (36/5, 36/5) ∧
    comSpecFormula c2kps (1/10) (8/10) = (9, 9) ∧
    estimateCOM c2kps (1/10) ≠ comSpecFormula c2kps (1/10) (8/10) := by
  have ht : torsoPoints c2kps (1/10) = [(8, 8)] := by
    norm_num [torsoPoints, c2kps, dictToKeypointsArray, cocoOrder, kpAt,
      estimateMidhip, List.filterMap]
  have k8 : kpAt c2kps 8 = (0, 0, 0) := by
    norm_num [kpAt, c2kps, dictToKeypointsArray, cocoOrder]
  have k10 : kpAt c2kps 10 = (0, 0, 0) := by
    norm_num [kpAt, c2kps, dictToKeypointsArray, cocoOrder]
  have k11 : kpAt c2kps 11 = (0, 0, 0) := by
    norm_num [kpAt, c2kps, dictToKeypointsArray, cocoOrder]
  have k13 : kpAt c2kps 13 = (0, 0, 0) := by
    norm_num [kpAt, c2kps, dictToKeypointsArray, cocoOrder]
  have h1 : estimateCOM c2kps (1/10) = (36/5, 36/5) := by
    norm_num [estimateCOM, ht, listMean, k8, k10, k11, k13]
  have h2 : comSpecFormula c2kps (1/10) (8/10) = (9, 9) := by
    norm_num [comSpecFormula, ht, listMean, k8, k10, k11, k13]
  refine ⟨h1, h2, ?_⟩
  rw [h1, h2]
  intro hcontra
  have := congrArg Prod.fst hcontra
  norm_num at this

/-- C7 (corrected): when the declared input age is set and nonzero and the
declared gender is set (and nonempty), `Pose.scale` resolves the input
profile from the declared values: the resolution functions of lines
202-203 return them unchanged, and the estimation heuristics contribute
nothing. -/
theorem C7_declared_profile_used (p : Pose) (a : ℤ) (g : String)
    (hage : p.input_age = some a) (ha : a ≠ 0)
    (hgen : p.input_gender = some g) (hg : g ≠ "") :
    resolveInputAge p = .ok (some a) ∧ resolveInputGender p = some g := by
  constructor
  · unfold resolveInputAge
    rw [hage]
    simp [intOptTruthy, ha]
  · unfold resolveInputGender
    rw [hgen]
    simp [strOptTruthy, hg]

/-- C7 witness: declared (20, female) is returned unchanged. -/
theorem C7_declared_profile_used_witness :
    c7wPose.input_age = some 20 ∧ c7wPose.input_gender = some "female" ∧
    resolveInputAge c7wPose = .ok (some 20) ∧
    resolveInputGender c7wPose = some "female" := by
  have h := C7_declared_profile_used c7wPose 20 "female" rfl (by decide) rfl
    (by decide)
  exact ⟨rfl, rfl, h.1, h.2⟩

/-- C7 counterexample: with declared `input_age = 0` (a valid age, falsy in
Python) and declared gender "male", the declared profile is valid, yet
`scale` ignores the declared age, runs `guess_age` (which fails on this
body), and crashes with a TypeError instead of resolving the profile from
the declared values. -/
theorem C7_age_zero_cex :
    c7pose.input_age = some 0 ∧ c7pose.input_gender = some "male" ∧
    getScalingFactorsO c7pose.input_age c7pose.input_gender =
      .ok (scalingTable 0 "male") ∧
    resolveInputAge c7pose = .ok none ∧
    c7pose.scale "female" 20 = .error .typeErr := by
  have hga : guessAge c7pose = .ok none := by
    simp [guessAge, c7pose]
  have hra : resolveInputAge c7pose = .ok none := by
    unfold resolveInputAge
    rw [show c7pose.input_age = some 0 from rfl]
    simpa [intOptTruthy] using hga
  refine ⟨rfl, rfl, ?_, hra, ?_⟩
  · exact getScalingFactorsO_valid 0 "male" (Or.inl rfl) (by norm_num)
  · unfold Pose.scale
    rw [hra]
    simp [Bind.bind, Except.bind, resolveInputGender, strOptTruthy, c7pose,
      getScalingFactorsO]

/-- C8 (confirmed): with no declared profile and both heuristics returning
unknown, `Pose.scale` fails (with the gender-validation ValueError raised
by the profile lookup on the unresolved `None` gender) rather than guessing
or defaulting. -/
theorem C8_unresolved_profile_error (p : Pose) (tg : String) (ta : ℤ)
    (hage : p.input_age = none) (hgen : p.input_gender = none)
    (hga : guessAge p = .ok none) (hgg : guessGender p = none) :
    p.scale tg ta = .error .invalidGender := by
  have hra : resolveInputAge p = .ok none := by
    unfold resolveInputAge
    rw [hage]
    simpa [intOptTruthy] using hga
  have hrg : resolveInputGender p = none := by
    unfold resolveInputGender
    rw [hgen]
    simpa [strOptTruthy] using hgg
  unfold Pose.scale
  rw [hra]
  simp only [Bind.bind, Except.bind]
  rw [hrg]
  simp only [getScalingFactorsO]

/-- C8 witness: the empty pose has no declared profile and no estimable
joints, and scaling it fails with the unresolved-gender error. -/
theorem C8_unresolved_profile_error_witness :
    c8wPose.input_age = none ∧ c8wPose.input_gender = none ∧
    guessAge c8wPose = .ok none ∧ guessGender c8wPose = none ∧
    c8wPose.scale "female" 20 = .error .invalidGender := by
  have hga : guessAge c8wPose = .ok none := by simp [guessAge, c8wPose]
  have hgg : guessGender c8wPose = none := by
    simp [guessGender, c8wPose, strOptTruthy]
  exact ⟨rfl, rfl, hga, hgg,
    C8_unresolved_profile_error c8wPose "female" 20 rfl rfl hga hgg⟩

/-- C10 (corrected): when no anchor candidate joint is present but the
input profile is resolvable from declared values (and the target is
valid), anchor selection returns `None` and `Pose.scale` raises the
KeyError of `self.body[anchor]` — not a pose and not a dedicated error. -/
theorem C10_absent_anchor_keyerror (p : Pose) (tg : String) (ta : ℤ)
    (a : ℤ) (g : String)
    (hage : p.input_age = some a) (ha : a ≠ 0)
    (hgen : p.input_gender = some g) (hg : g = "male" ∨ g = "female")
    (har : 0 ≤ a ∧ a ≤ 120)
    (htg : tg = "male" ∨ tg = "female") (htar : 0 ≤ ta ∧ ta ≤ 120)
    (hRAnkle : p.body .RAnkle = none) (hLAnkle : p.body .LAnkle = none)
    (hRKnee : p.body .RKnee = none) (hLKnee : p.body .LKnee = none)
    (hRHip : p.body .RHip = none) (hLHip : p.body .LHip = none)
    (hNeck : p.body .Neck = none) :
    chooseMainSupportWithGravity (dictToKeypointsArray p.body) = none ∧
    p.scale tg ta = .error .keyErr := by
  have e10 : kpAt (dictToKeypointsArray p.body) 10 = (0, 0, 0) := by
    simp [kpAt, dictToKeypointsArray, cocoOrder, hRAnkle]
  have e13 : kpAt (dictToKeypointsArray p.body) 13 = (0, 0, 0) := by
    simp [kpAt, dictToKeypointsArray, cocoOrder, hLAnkle]
  have e9 : kpAt (dictToKeypointsArray p.body) 9 = (0, 0, 0) := by
    simp [kpAt, dictToKeypointsArray, cocoOrder, hRKnee]
  have e12 : kpAt (dictToKeypointsArray p.body) 12 = (0, 0, 0) := by
    simp [kpAt, dictToKeypointsArray, cocoOrder, hLKnee]
  have e8 : kpAt (dictToKeypointsArray p.body) 8 = (0, 0, 0) := by
    simp [kpAt, dictToKeypointsArray, cocoOrder, hRHip]
  have e11 : kpAt (dictToKeypointsArray p.body) 11 = (0, 0, 0) := by
    simp [kpAt, dictToKeypointsArray, cocoOrder, hLHip]
  have e1 : kpAt (dictToKeypointsArray p.body) 1 = (0, 0, 0) := by
    simp [kpAt, dictToKeypointsArray, cocoOrder, hNeck]
  have hchoose : chooseMainSupportWithGravity (dictToKeypointsArray p.body) =
      none := by
    unfold chooseMainSupportWithGravity supportGroups
    simp only [chooseFromGroups, List.filterMap, e10, e13, e9, e12, e8, e11, e1]
    norm_num
  refine ⟨hchoose, ?_⟩
  have hra : resolveInputAge p = .ok (some a) := by
    unfold resolveInputAge
    rw [hage]
    simp [intOptTruthy, ha]
  unfold Pose.scale
  rw [hra]
  simp only [Bind.bind, Except.bind]
  have hrg : resolveInputGender p = some g := by
    unfold resolveInputGender
    rw [hgen]
    have : g ≠ "" := by rcases hg with h | h <;> subst h <;> decide
    simp [strOptTruthy, this]
  rw [hrg, getScalingFactorsO_valid a g hg har]
  simp only [Bind.bind, Except.bind]
  rw [getScalingFactorsO_valid ta tg htg htar]
  simp only [Bind.bind, Except.bind]
  rw [hchoose]

/-- C10 witness: a nose-only pose with declared (20, female). -/
theorem C10_absent_anchor_keyerror_witness :
    c10wPose.body .Neck = none ∧ c10wPose.body .RAnkle = none ∧
    chooseMainSupportWithGravity (dictToKeypointsArray c10wPose.body) = none ∧
    c10wPose.scale "female" 20 = .error .keyErr := by
  have h := C10_absent_anchor_keyerror c10wPose "female" 20 20 "female" rfl
    (by decide) rfl (Or.inr rfl) (by decide) (Or.inr rfl) (by decide)
    rfl rfl rfl rfl rfl rfl rfl
  exact ⟨rfl, rfl, h.1, h.2⟩

/-- C10 counterexample: the same anchor-free skeleton with no declared
profile makes `Pose.scale` raise the gender-validation ValueError of the
profile lookup, not the KeyError the claim asserts for every such pose. -/
theorem C10_no_profile_cex :
    chooseMainSupportWithGravity (dictToKeypointsArray c10cexPose.body) = none ∧
    c10cexPose.scale "female" 20 = .error .invalidGender ∧
    ScaleErr.invalidGender ≠ ScaleErr.keyErr := by
  have e10 : kpAt (dictToKeypointsArray c10cexPose.body) 10 = (0, 0, 0) := by
    norm_num [kpAt, dictToKeypointsArray, cocoOrder, c10cexPose]
  have e13 : kpAt (dictToKeypointsArray c10cexPose.body) 13 = (0, 0, 0) := by
    norm_num [kpAt, dictToKeypointsArray, cocoOrder, c10cexPose]
  have e9 : kpAt (dictToKeypointsArray c10cexPose.body) 9 = (0, 0, 0) := by
    norm_num [kpAt, dictToKeypointsArray, cocoOrder, c10cexPose]
  have e12 : kpAt (dictToKeypointsArray c10cexPose.body) 12 = (0, 0, 0) := by
    norm_num [kpAt, dictToKeypointsArray, cocoOrder, c10cexPose]
  have e8 : kpAt (dictToKeypointsArray c10cexPose.body) 8 = (0, 0, 0) := by
    norm_num [kpAt, dictToKeypointsArray, cocoOrder, c10cexPose]
  have e11 : kpAt (dictToKeypointsArray c10cexPose.body) 11 = (0, 0, 0) := by
    norm_num [kpAt, dictToKeypointsArray, cocoOrder, c10cexPose]
  have e1 : kpAt (dictToKeypointsArray c10cexPose.body) 1 = (0, 0, 0) := by
    norm_num [kpAt, dictToKeypointsArray, cocoOrder, c10cexPose]
  refine ⟨?_, ?_, by simp⟩
  · unfold chooseMainSupportWithGravity supportGroups
    simp only [chooseFromGroups, List.filterMap, e10, e13, e9, e12, e8, e11, e1]
    norm_num
  · have hga : guessAge c10cexPose = .ok none := by
      simp [guessAge, c10cexPose]
    have hra : resolveInputAge c10cexPose = .ok none := by
      unfold resolveInputAge
      rw [show c10cexPose.input_age = none from rfl]
      exact hga
    unfold Pose.scale
    rw [hra]
    simp [Bind.bind, Except.bind, resolveInputGender, strOptTruthy, c10cexPose,
      guessGender, getScalingFactorsO]

/-- C1 (corrected): when `Pose.scale` succeeds and the anchor's original
coordinates lie inside the canvas rectangle, the returned pose assigns the
anchor exactly its original coordinates.  (Outside the canvas the final
crop moves it: see the counterexample.) -/
theorem C1_anchor_fixed (p q : Pose) (tg : String) (ta : ℤ) (anc : Joint)
    (apt : Point)
    (hs : p.scale tg ta = .ok q)
    (hc : chooseMainSupportWithGravity (dictToKeypointsArray p.body) = some anc)
    (hb : p.body anc = some apt)
    (hin : inCanvas p.canvas_width p.canvas_height apt) :
    q.body anc = some apt := by
  obtain ⟨inAge, inF, tF, anchor, anchorPos, newFace, hra, hgf, htf, hch, hba,
    hsf, hqb, _⟩ := scale_ok_inversion hs
  rw [hc] at hch
  have hanc : anchor = anc := by
    exact ((Option.some.injEq _ _).mp hch).symm
  subst hanc
  rw [hb] at hba
  have hapt : anchorPos = apt := by
    exact ((Option.some.injEq _ _).mp hba).symm
  subst hapt
  have hinv := scaleBody_inv hb trivial (stepClosed_trivial p.body
    (adjustFactors tF inF) (scaleHeightRatio inAge (resolveInputGender p) ta tg))
  simp only [hqb, hinv.2, Option.map_some', cropPoint_id hin]

/-- C1 witness: neck-anchored pose with the anchor inside the canvas. -/
theorem C1_anchor_fixed_witness :
    chooseMainSupportWithGravity (dictToKeypointsArray c1wPose.body) =
      some .Neck ∧
    c1wPose.body .Neck = some (50, 50) ∧
    inCanvas c1wPose.canvas_width c1wPose.canvas_height (50, 50) ∧
    (c1wPose.scale "female" 20).map (fun q => q.body .Neck) =
      .ok (some (50, 50)) := by
  have hc : chooseMainSupportWithGravity (dictToKeypointsArray c1wPose.body) =
      some .Neck := by
    have e10 : kpAt (dictToKeypointsArray c1wPose.body) 10 = (0, 0, 0) := by
      norm_num [kpAt, dictToKeypointsArray, cocoOrder, c1wPose]
    have e13 : kpAt (dictToKeypointsArray c1wPose.body) 13 = (0, 0, 0) := by
      norm_num [kpAt, dictToKeypointsArray, cocoOrder, c1wPose]
    have e9 : kpAt (dictToKeypointsArray c1wPose.body) 9 = (0, 0, 0) := by
      norm_num [kpAt, dictToKeypointsArray, cocoOrder, c1wPose]
    have e12 : kpAt (dictToKeypointsArray c1wPose.body) 12 = (0, 0, 0) := by
      norm_num [kpAt, dictToKeypointsArray, cocoOrder, c1wPose]
    have e8 : kpAt (dictToKeypointsArray c1wPose.body) 8 = (0, 0, 0) := by
      norm_num [kpAt, dictToKeypointsArray, cocoOrder, c1wPose]
    have e11 : kpAt (dictToKeypointsArray c1wPose.body) 11 = (0, 0, 0) := by
      norm_num [kpAt, dictToKeypointsArray, cocoOrder, c1wPose]
    have e1 : kpAt (dictToKeypointsArray c1wPose.body) 1 = (50, 50, 9/10) := by
      norm_num [kpAt, dictToKeypointsArray, cocoOrder, c1wPose]
    unfold chooseMainSupportWithGravity supportGroups
    simp only [chooseFromGroups, List.filterMap, e10, e13, e9, e12, e8, e11, e1]
    norm_num [sortDescBy, insertDescBy, jointAt, cocoOrder]
  have hra : resolveInputAge c1wPose = .ok (some 20) :=
    resolveInputAge_declared c1wPose 20 rfl (by norm_num)
  have hs : ∃ q, c1wPose.scale "female" 20 = .ok q := by
    unfold Pose.scale
    rw [hra]
    simp only [Bind.bind, Except.bind]
    rw [resolveInputGender_declared c1wPose "female" rfl (by simp),
      getScalingFactorsO_valid 20 "female" (Or.inr rfl) (by norm_num)]
    simp only [Bind.bind, Except.bind]
    rw [hc]
    simp only []
    rw [show c1wPose.body .Neck = some (50, 50) from rfl]
    simp only []
    rw [show c1wPose.face = ([] : List (Option Point)) from rfl]
    simp only [scaleFace]
    exact ⟨_, rfl⟩
  obtain ⟨q, hq⟩ := hs
  have hfix := C1_anchor_fixed c1wPose q "female" 20 .Neck (50, 50) hq hc rfl
    (by norm_num [inCanvas, c1wPose])
  refine ⟨hc, rfl, by norm_num [inCanvas, c1wPose], ?_⟩
  rw [hq]
  simp [Except.map, hfix]

/-- C1 counterexample: the claim as stated fails when the anchor starts
outside the canvas: the neck anchor at `(150, 50)` on a 100×100 canvas is
selected as anchor but comes back clamped to `(100, 50)`. -/
theorem C1_anchor_moved_cex :
    chooseMainSupportWithGravity (dictToKeypointsArray c1cexPose.body) =
      some .Neck ∧
    c1cexPose.body .Neck = some (150, 50) ∧
    (c1cexPose.scale "female" 20).map (fun q => q.body .Neck) =
      .ok (some (100, 50)) ∧
    ((100 : ℚ), (50 : ℚ)) ≠ ((150 : ℚ), (50 : ℚ)) := by
  have hc : chooseMainSupportWithGravity (dictToKeypointsArray c1cexPose.body) =
      some .Neck := by
    have e10 : kpAt (dictToKeypointsArray c1cexPose.body) 10 = (0, 0, 0) := by
      norm_num [kpAt, dictToKeypointsArray, cocoOrder, c1cexPose]
    have e13 : kpAt (dictToKeypointsArray c1cexPose.body) 13 = (0, 0, 0) := by
      norm_num [kpAt, dictToKeypointsArray, cocoOrder, c1cexPose]
    have e9 : kpAt (dictToKeypointsArray c1cexPose.body) 9 = (0, 0, 0) := by
      norm_num [kpAt, dictToKeypointsArray, cocoOrder, c1cexPose]
    have e12 : kpAt (dictToKeypointsArray c1cexPose.body) 12 = (0, 0, 0) := by
      norm_num [kpAt, dictToKeypointsArray, cocoOrder, c1cexPose]
    have e8 : kpAt (dictToKeypointsArray c1cexPose.body) 8 = (0, 0, 0) := by
      norm_num [kpAt, dictToKeypointsArray, cocoOrder, c1cexPose]
    have e11 : kpAt (dictToKeypointsArray c1cexPose.body) 11 = (0, 0, 0) := by
      norm_num [kpAt, dictToKeypointsArray, cocoOrder, c1cexPose]
    have e1 : kpAt (dictToKeypointsArray c1cexPose.body) 1 = (150, 50, 9/10) := by
      norm_num [kpAt, dictToKeypointsArray, cocoOrder, c1cexPose]
    unfold chooseMainSupportWithGravity supportGroups
    simp only [chooseFromGroups, List.filterMap, e10, e13, e9, e12, e8, e11, e1]
    norm_num [sortDescBy, insertDescBy, jointAt, cocoOrder]
  have hra : resolveInputAge c1cexPose = .ok (some 20) :=
    resolveInputAge_declared c1cexPose 20 rfl (by norm_num)
  have hs : ∃ q, c1cexPose.scale "female" 20 = .ok q ∧
      q.body = fun j =>
        ((scaleBody c1cexPose.body
          (adjustFactors (scalingTable 20 "female") (scalingTable 20 "female"))
          (scaleHeightRatio (some 20) (some "female") 20 "female")
          .Neck (150, 50)) j).map
          (cropPoint c1cexPose.canvas_width c1cexPose.canvas_height) := by
    unfold Pose.scale
    rw [hra]
    simp only [Bind.bind, Except.bind]
    rw [resolveInputGender_declared c1cexPose "female" rfl (by simp),
      getScalingFactorsO_valid 20 "female" (Or.inr rfl) (by norm_num)]
    simp only [Bind.bind, Except.bind]
    rw [hc]
    simp only []
    rw [show c1cexPose.body .Neck = some (150, 50) from rfl]
    simp only []
    rw [show c1cexPose.face = ([] : List (Option Point)) from rfl]
    simp only [scaleFace]
    exact ⟨_, rfl, rfl⟩
  obtain ⟨q, hq, hqb⟩ := hs
  have hsb : scaleBody c1cexPose.body
      (adjustFactors (scalingTable 20 "female") (scalingTable 20 "female"))
      (scaleHeightRatio (some 20) (some "female") 20 "female")
      .Neck (150, 50) .Neck = some (150, 50) :=
    (scaleBody_inv (P := fun _ _ => True) rfl trivial
      (stepClosed_trivial _ _ _)).2
  refine ⟨hc, rfl, ?_, by norm_num⟩
  rw [hq]
  simp only [Except.map, hqb, hsb]
  norm_num [cropPoint, c1cexPose]

/-- C4 (corrected): a joint appears in the output skeleton of `Pose.scale`
exactly when it is present in the input AND reachable from the anchor via
adjacency edges whose endpoints are present and whose displacement exceeds
the BFS length threshold (`codeStep`; the claim omitted the threshold).
Output positions are the crops of the BFS map, and every non-anchor BFS
entry records a parent with the step formula
`scaled(parent) + vector * (edge_scale * height_ratio)`. -/
theorem C4_reachability (p q : Pose) (tg : String) (ta : ℤ) (inAge : Option ℤ)
    (inF tF : ScalingFactors) (anc : Joint) (apt : Point)
    (hs : p.scale tg ta = .ok q)
    (hra : resolveInputAge p = .ok inAge)
    (hgf : getScalingFactorsO inAge (resolveInputGender p) = .ok inF)
    (htf : getScalingFactorsO (some ta) (some tg) = .ok tF)
    (hc : chooseMainSupportWithGravity (dictToKeypointsArray p.body) = some anc)
    (hb : p.body anc = some apt) :
    (∀ j, (q.body j).isSome ↔ (p.body j).isSome ∧ CodeReach p.body anc j) ∧
    (∀ j, q.body j = ((scaleBody p.body (adjustFactors tF inF)
        (scaleHeightRatio inAge (resolveInputGender p) ta tg) anc apt) j).map
        (cropPoint p.canvas_width p.canvas_height)) ∧
    (∀ j v, scaleBody p.body (adjustFactors tF inF)
        (scaleHeightRatio inAge (resolveInputGender p) ta tg) anc apt j =
          some v →
      (j = anc ∧ v = apt) ∨
      parentWitness p.body (adjustFactors tF inF)
        (scaleHeightRatio inAge (resolveInputGender p) ta tg)
        (scaleBody p.body (adjustFactors tF inF)
          (scaleHeightRatio inAge (resolveInputGender p) ta tg) anc apt)
        j v) := by
  obtain ⟨inAge2, inF2, tF2, anchor, anchorPos, newFace, hra2, hgf2, htf2, hch,
    hba, hsf, hqb, _⟩ := scale_ok_inversion hs
  rw [hra] at hra2
  have hia : inAge = inAge2 := (Except.ok.injEq _ _).mp hra2
  subst hia
  rw [hgf] at hgf2
  have hif : inF = inF2 := (Except.ok.injEq _ _).mp hgf2
  subst hif
  rw [htf] at htf2
  have htf3 : tF = tF2 := (Except.ok.injEq _ _).mp htf2
  subst htf3
  rw [hc] at hch
  have hanc : anc = anchor := (Option.some.injEq _ _).mp hch
  subst hanc
  rw [hb] at hba
  have hapt : apt = anchorPos := (Option.some.injEq _ _).mp hba
  subst hapt
  have hinv := scaleBody_inv hb trivial (stepClosed_trivial p.body
    (adjustFactors tF inF) (scaleHeightRatio inAge (resolveInputGender p) ta tg))
  refine ⟨?_, ?_, ?_⟩
  · intro j
    constructor
    · intro hj
      simp only [hqb, Option.isSome_map'] at hj
      exact ⟨hinv.1.dom_present j hj, hinv.1.dom_reach j hj⟩
    · rintro ⟨hpres, hreach⟩
      simp only [hqb, Option.isSome_map']
      exact (scaleBody_isSome_iff hb j).mpr hreach
  · intro j
    rw [hqb]
  · intro j v hj
    rcases hinv.1.entry_formula j v hj with hl | hr
    · exact Or.inl hl
    · exact Or.inr hr

/-- C4 witness: neck anchor with a reachable nose; the nose is present in
the output. -/
theorem C4_reachability_witness :
    chooseMainSupportWithGravity (dictToKeypointsArray c4wPose.body) =
      some .Neck ∧
    c4wPose.body .Nose = some (0, 5) ∧
    (c4wPose.scale "female" 20).map (fun q => (q.body .Nose).isSome) =
      .ok true := by
  have hc : chooseMainSupportWithGravity (dictToKeypointsArray c4wPose.body) =
      some .Neck := by
    have e10 : kpAt (dictToKeypointsArray c4wPose.body) 10 = (0, 0, 0) := by
      norm_num [kpAt, dictToKeypointsArray, cocoOrder, c4wPose]
    have e13 : kpAt (dictToKeypointsArray c4wPose.body) 13 = (0, 0, 0) := by
      norm_num [kpAt, dictToKeypointsArray, cocoOrder, c4wPose]
    have e9 : kpAt (dictToKeypointsArray c4wPose.body) 9 = (0, 0, 0) := by
      norm_num [kpAt, dictToKeypointsArray, cocoOrder, c4wPose]
    have e12 : kpAt (dictToKeypointsArray c4wPose.body) 12 = (0, 0, 0) := by
      norm_num [kpAt, dictToKeypointsArray, cocoOrder, c4wPose]
    have e8 : kpAt (dictToKeypointsArray c4wPose.body) 8 = (0, 0, 0) := by
      norm_num [kpAt, dictToKeypointsArray, cocoOrder, c4wPose]
    have e11 : kpAt (dictToKeypointsArray c4wPose.body) 11 = (0, 0, 0) := by
      norm_num [kpAt, dictToKeypointsArray, cocoOrder, c4wPose]
    have e1 : kpAt (dictToKeypointsArray c4wPose.body) 1 = (0, 0, 9/10) := by
      norm_num [kpAt, dictToKeypointsArray, cocoOrder, c4wPose]
    unfold chooseMainSupportWithGravity supportGroups
    simp only [chooseFromGroups, List.filterMap, e10, e13, e9, e12, e8, e11, e1]
    norm_num [sortDescBy, insertDescBy, jointAt, cocoOrder]
  have hra : resolveInputAge c4wPose = .ok (some 20) :=
    resolveInputAge_declared c4wPose 20 rfl (by norm_num)
  have hrg : resolveInputGender c4wPose = some "female" :=
    resolveInputGender_declared c4wPose "female" rfl (by simp)
  have hgf : getScalingFactorsO (some 20) (resolveInputGender c4wPose) =
      .ok (scalingTable 20 "female") := by
    rw [hrg]
    exact getScalingFactorsO_valid 20 "female" (Or.inr rfl) (by norm_num)
  have hs : ∃ q, c4wPose.scale "female" 20 = .ok q := by
    unfold Pose.scale
    rw [hra]
    simp only [Bind.bind, Except.bind]
    rw [hrg, getScalingFactorsO_valid 20 "female" (Or.inr rfl) (by norm_num)]
    simp only [Bind.bind, Except.bind]
    rw [hc]
    simp only []
    rw [show c4wPose.body .Neck = some (0, 0) from rfl]
    simp only []
    rw [show c4wPose.face = ([] : List (Option Point)) from rfl]
    simp only [scaleFace]
    exact ⟨_, rfl⟩
  obtain ⟨q, hq⟩ := hs
  have hchar := C4_reachability c4wPose q "female" 20 (some 20)
    (scalingTable 20 "female") (scalingTable 20 "female") .Neck (0, 0) hq hra
    hgf (getScalingFactorsO_valid 20 "female" (Or.inr rfl) (by norm_num)) hc rfl
  have hreach : CodeReach c4wPose.body .Neck .Nose :=
    Relation.ReflTransGen.single
      ⟨by simp [adj], (0, 0), (0, 5), rfl, rfl, by norm_num [distSq, epsSq]⟩
  have hnose : (q.body .Nose).isSome :=
    (hchar.1 .Nose).mpr ⟨rfl, hreach⟩
  refine ⟨hc, rfl, ?_⟩
  rw [hq]
  simp [Except.map, hnose]

/-- C4 counterexample: the nose coincides with the neck anchor, so its edge
fails the `1e-6` length threshold; the nose is present and reachable via
present-endpoint edges as the claim requires, yet it is omitted from the
output skeleton. -/
theorem C4_threshold_cex :
    c4cexPose.body .Nose = some (0, 0) ∧
    chooseMainSupportWithGravity (dictToKeypointsArray c4cexPose.body) =
      some .Neck ∧
    SpecReach c4cexPose.body .Neck .Nose ∧
    (c4cexPose.scale "female" 20).map (fun q => q.body .Nose) = .ok none := by
  have hc : chooseMainSupportWithGravity (dictToKeypointsArray c4cexPose.body) =
      some .Neck := by
    have e10 : kpAt (dictToKeypointsArray c4cexPose.body) 10 = (0, 0, 0) := by
      norm_num [kpAt, dictToKeypointsArray, cocoOrder, c4cexPose]
    have e13 : kpAt (dictToKeypointsArray c4cexPose.body) 13 = (0, 0, 0) := by
      norm_num [kpAt, dictToKeypointsArray, cocoOrder, c4cexPose]
    have e9 : kpAt (dictToKeypointsArray c4cexPose.body) 9 = (0, 0, 0) := by
      norm_num [kpAt, dictToKeypointsArray, cocoOrder, c4cexPose]
    have e12 : kpAt (dictToKeypointsArray c4cexPose.body) 12 = (0, 0, 0) := by
      norm_num [kpAt, dictToKeypointsArray, cocoOrder, c4cexPose]
    have e8 : kpAt (dictToKeypointsArray c4cexPose.body) 8 = (0, 0, 0) := by
      norm_num [kpAt, dictToKeypointsArray, cocoOrder, c4cexPose]
    have e11 : kpAt (dictToKeypointsArray c4cexPose.body) 11 = (0, 0, 0) := by
      norm_num [kpAt, dictToKeypointsArray, cocoOrder, c4cexPose]
    have e1 : kpAt (dictToKeypointsArray c4cexPose.body) 1 = (0, 0, 9/10) := by
      norm_num [kpAt, dictToKeypointsArray, cocoOrder, c4cexPose]
    unfold chooseMainSupportWithGravity supportGroups
    simp only [chooseFromGroups, List.filterMap, e10, e13, e9, e12, e8, e11, e1]
    norm_num [sortDescBy, insertDescBy, jointAt, cocoOrder]
  have hra : resolveInputAge c4cexPose = .ok (some 20) :=
    resolveInputAge_declared c4cexPose 20 rfl (by norm_num)
  have hs : ∃ q, c4cexPose.scale "female" 20 = .ok q ∧
      q.body = fun j =>
        ((scaleBody c4cexPose.body
          (adjustFactors (scalingTable 20 "female") (scalingTable 20 "female"))
          (scaleHeightRatio (some 20) (some "female") 20 "female")
          .Neck (0, 0)) j).map
          (cropPoint c4cexPose.canvas_width c4cexPose.canvas_height) := by
    unfold Pose.scale
    rw [hra]
    simp only [Bind.bind, Except.bind]
    rw [resolveInputGender_declared c4cexPose "female" rfl (by simp),
      getScalingFactorsO_valid 20 "female" (Or.inr rfl) (by norm_num)]
    simp only [Bind.bind, Except.bind]
    rw [hc]
    simp only []
    rw [show c4cexPose.body .Neck = some (0, 0) from rfl]
    simp only []
    rw [show c4cexPose.face = ([] : List (Option Point)) from rfl]
    simp only [scaleFace]
    exact ⟨_, rfl, rfl⟩
  obtain ⟨q, hq, hqb⟩ := hs
  have hnostep : ∀ c, ¬ codeStep c4cexPose.body .Neck c := by
    rintro c ⟨hadj, pu, pc, hbu, hbc, hd⟩
    have hpu : pu = ((0 : ℚ), (0 : ℚ)) := ((Option.some.injEq _ _).mp hbu).symm
    subst hpu
    cases c <;>
      first
        | exact Option.noConfusion hbc
        | exact absurd hadj (by decide)
        | (have hpc : pc = ((0 : ℚ), (0 : ℚ)) :=
            ((Option.some.injEq _ _).mp hbc).symm
           subst hpc
           norm_num [distSq, epsSq] at hd)
  have hreachonly : ∀ j, CodeReach c4cexPose.body .Neck j → j = .Neck := by
    intro j h
    induction h with
    | refl => rfl
    | tail hp hs ih =>
      subst ih
      exact absurd hs (hnostep _)
  have hsb : scaleBody c4cexPose.body
      (adjustFactors (scalingTable 20 "female") (scalingTable 20 "female"))
      (scaleHeightRatio (some 20) (some "female") 20 "female")
      .Neck (0, 0) .Nose = none := by
    rw [← Option.not_isSome_iff_eq_none]
    intro hsome
    have hr2 := hreachonly .Nose
      ((scaleBody_isSome_iff
        (show c4cexPose.body .Neck = some ((0 : ℚ), (0 : ℚ)) from rfl)
        .Nose).mp hsome)
    exact Joint.noConfusion hr2
  refine ⟨rfl, hc, ?_, ?_⟩
  · exact Relation.ReflTransGen.single ⟨by simp [adj], rfl, rfl⟩
  · rw [hq]
    simp only [Except.map, hqb, hsb]
    rfl

/-- C5 (corrected): scaling a pose to its own declared profile reproduces a
joint's original coordinates provided the declared age is nonzero (zero is
falsy and triggers re-estimation), the declared profile is valid, the joint
survives into the output, and its original position lies inside the canvas
(the final crop clamps outside points: see the counterexample).  Under
these conditions the adjusted ratios and the height ratio are exactly 1 and
the BFS reproduces each original position. -/
theorem C5_self_scale_identity (p q : Pose) (g : String) (a : ℤ)
    (hga : p.input_age = some a) (ha : a ≠ 0) (har : 0 ≤ a ∧ a ≤ 120)
    (hgg : p.input_gender = some g) (hg : g = "male" ∨ g = "female")
    (hs : p.scale g a = .ok q) :
    ∀ j pt, p.body j = some pt →
      inCanvas p.canvas_width p.canvas_height pt →
      (q.body j).isSome → q.body j = some pt := by
  obtain ⟨inAge, inF, tF, anchor, anchorPos, newFace, hra, hgf, htf, hch, hba,
    hsf, hqb, _⟩ := scale_ok_inversion hs
  have hgne : g ≠ "" := by rcases hg with h | h <;> subst h <;> simp
  have hra2 : resolveInputAge p = .ok (some a) :=
    resolveInputAge_declared p a hga ha
  rw [hra2] at hra
  have hia : some a = inAge := (Except.ok.injEq _ _).mp hra
  have hia2 : inAge = some a := hia.symm
  subst hia2
  have hrg : resolveInputGender p = some g :=
    resolveInputGender_declared p g hgg hgne
  rw [hrg, getScalingFactorsO_valid a g hg har] at hgf
  have hif : scalingTable a g = inF := (Except.ok.injEq _ _).mp hgf
  rw [getScalingFactorsO_valid a g hg har] at htf
  have htf2 : scalingTable a g = tF := (Except.ok.injEq _ _).mp htf
  rw [← hif, ← htf2, adjustFactors_self, hrg, scaleHeightRatio_self] at hqb
  have hinv := scaleBody_inv hba hba (stepClosed_identity p.body)
  intro j pt hbj hin hjs
  rw [hqb] at hjs
  simp only [Option.isSome_map'] at hjs
  obtain ⟨v, hv⟩ := Option.isSome_iff_exists.mp hjs
  have hpv := hinv.1.pres j v hv
  rw [hbj] at hpv
  have hvp : pt = v := (Option.some.injEq _ _).mp hpv
  subst hvp
  rw [hqb]
  simp only [hv, Option.map_some', cropPoint_id hin]

/-- C5 witness: self-scaling a neck-only pose with declared profile
(20, female) and the neck inside the canvas reproduces the neck
exactly. -/
theorem C5_self_scale_identity_witness :
    c5wPose.input_age = some 20 ∧ (20 : ℤ) ≠ 0 ∧
    ((0 : ℤ) ≤ 20 ∧ (20 : ℤ) ≤ 120) ∧
    c5wPose.input_gender = some "female" ∧
    c5wPose.body .Neck = some (50, 60) ∧
    inCanvas c5wPose.canvas_width c5wPose.canvas_height (50, 60) ∧
    (c5wPose.scale "female" 20).map (fun q => q.body .Neck) =
      .ok (some (50, 60)) := by
  have hc : chooseMainSupportWithGravity (dictToKeypointsArray c5wPose.body) =
      some .Neck := by
    have e10 : kpAt (dictToKeypointsArray c5wPose.body) 10 = (0, 0, 0) := by
      norm_num [kpAt, dictToKeypointsArray, cocoOrder, c5wPose]
    have e13 : kpAt (dictToKeypointsArray c5wPose.body) 13 = (0, 0, 0) := by
      norm_num [kpAt, dictToKeypointsArray, cocoOrder, c5wPose]
    have e9 : kpAt (dictToKeypointsArray c5wPose.body) 9 = (0, 0, 0) := by
      norm_num [kpAt, dictToKeypointsArray, cocoOrder, c5wPose]
    have e12 : kpAt (dictToKeypointsArray c5wPose.body) 12 = (0, 0, 0) := by
      norm_num [kpAt, dictToKeypointsArray, cocoOrder, c5wPose]
    have e8 : kpAt (dictToKeypointsArray c5wPose.body) 8 = (0, 0, 0) := by
      norm_num [kpAt, dictToKeypointsArray, cocoOrder, c5wPose]
    have e11 : kpAt (dictToKeypointsArray c5wPose.body) 11 = (0, 0, 0) := by
      norm_num [kpAt, dictToKeypointsArray, cocoOrder, c5wPose]
    have e1 : kpAt (dictToKeypointsArray c5wPose.body) 1 = (50, 60, 9/10) := by
      norm_num [kpAt, dictToKeypointsArray, cocoOrder, c5wPose]
    unfold chooseMainSupportWithGravity supportGroups
    simp only [chooseFromGroups, List.filterMap, e10, e13, e9, e12, e8, e11, e1]
    norm_num [sortDescBy, insertDescBy, jointAt, cocoOrder]
  have hra : resolveInputAge c5wPose = .ok (some 20) :=
    resolveInputAge_declared c5wPose 20 rfl (by norm_num)
  have hs : ∃ q, c5wPose.scale "female" 20 = .ok q := by
    unfold Pose.scale
    rw [hra]
    simp only [Bind.bind, Except.bind]
    rw [resolveInputGender_declared c5wPose "female" rfl (by simp),
      getScalingFactorsO_valid 20 "female" (Or.inr rfl) (by norm_num)]
    simp only [Bind.bind, Except.bind]
    rw [hc]
    simp only []
    rw [show c5wPose.body .Neck = some (50, 60) from rfl]
    simp only []
    rw [show c5wPose.face = ([] : List (Option Point)) from rfl]
    simp only [scaleFace]
    exact ⟨_, rfl⟩
  obtain ⟨q, hq⟩ := hs
  obtain ⟨inAge, inF, tF, anchor, anchorPos, newFace, hra2, hgf2, htf2, hch,
    hba, hsf, hqb, _⟩ := scale_ok_inversion hq
  rw [hc] at hch
  have hanc : Joint.Neck = anchor := (Option.some.injEq _ _).mp hch
  have hanc2 : anchor = Joint.Neck := hanc.symm
  subst hanc2
  have hap : ((50 : ℚ), (60 : ℚ)) = anchorPos := (Option.some.injEq _ _).mp hba
  have hap2 : anchorPos = ((50 : ℚ), (60 : ℚ)) := hap.symm
  subst hap2
  have hanchent := (scaleBody_inv hba trivial (stepClosed_trivial c5wPose.body
    (adjustFactors tF inF)
    (scaleHeightRatio inAge (resolveInputGender c5wPose) 20 "female"))).2
  have hisSome : (q.body .Neck).isSome := by
    rw [hqb]
    simp only [Option.isSome_map', hanchent]
    rfl
  have hid := C5_self_scale_identity c5wPose q "female" 20 rfl (by norm_num)
    (by norm_num) rfl (Or.inr rfl) hq .Neck (50, 60) rfl
    (by norm_num [inCanvas, c5wPose]) hisSome
  refine ⟨rfl, by norm_num, by norm_num, rfl, rfl,
    by norm_num [inCanvas, c5wPose], ?_⟩
  rw [hq]
  simp [Except.map, hid]

/-- C5 counterexample: a self-scale whose neck starts at `(30, -20)`,
outside the canvas; the final crop clamps it to `(30, 0)`, so even the
anchor's original coordinates are not reproduced. -/
theorem C5_self_scale_clamp_cex :
    c5cexPose.input_gender = some "female" ∧
    c5cexPose.input_age = some 20 ∧
    c5cexPose.body .Neck = some (30, -20) ∧
    (c5cexPose.scale "female" 20).map (fun q => q.body .Neck) =
      .ok (some (30, 0)) := by
  have hc : chooseMainSupportWithGravity (dictToKeypointsArray c5cexPose.body) =
      some .Neck := by
    have e10 : kpAt (dictToKeypointsArray c5cexPose.body) 10 = (0, 0, 0) := by
      norm_num [kpAt, dictToKeypointsArray, cocoOrder, c5cexPose]
    have e13 : kpAt (dictToKeypointsArray c5cexPose.body) 13 = (0, 0, 0) := by
      norm_num [kpAt, dictToKeypointsArray, cocoOrder, c5cexPose]
    have e9 : kpAt (dictToKeypointsArray c5cexPose.body) 9 = (0, 0, 0) := by
      norm_num [kpAt, dictToKeypointsArray, cocoOrder, c5cexPose]
    have e12 : kpAt (dictToKeypointsArray c5cexPose.body) 12 = (0, 0, 0) := by
      norm_num [kpAt, dictToKeypointsArray, cocoOrder, c5cexPose]
    have e8 : kpAt (dictToKeypointsArray c5cexPose.body) 8 = (0, 0, 0) := by
      norm_num [kpAt, dictToKeypointsArray, cocoOrder, c5cexPose]
    have e11 : kpAt (dictToKeypointsArray c5cexPose.body) 11 = (0, 0, 0) := by
      norm_num [kpAt, dictToKeypointsArray, cocoOrder, c5cexPose]
    have e1 : kpAt (dictToKeypointsArray c5cexPose.body) 1 =
        (30, -20, 9/10) := by
      norm_num [kpAt, dictToKeypointsArray, cocoOrder, c5cexPose]
    unfold chooseMainSupportWithGravity supportGroups
    simp only [chooseFromGroups, List.filterMap, e10, e13, e9, e12, e8, e11, e1]
    norm_num [sortDescBy, insertDescBy, jointAt, cocoOrder]
  have hra : resolveInputAge c5cexPose = .ok (some 20) :=
    resolveInputAge_declared c5cexPose 20 rfl (by norm_num)
  have hs : ∃ q, c5cexPose.scale "female" 20 = .ok q ∧
      q.body = fun j =>
        ((scaleBody c5cexPose.body
          (adjustFactors (scalingTable 20 "female") (scalingTable 20 "female"))
          (scaleHeightRatio (some 20) (some "female") 20 "female")
          .Neck (30, -20)) j).map
          (cropPoint c5cexPose.canvas_width c5cexPose.canvas_height) := by
    unfold Pose.scale
    rw [hra]
    simp only [Bind.bind, Except.bind]
    rw [resolveInputGender_declared c5cexPose "female" rfl (by simp),
      getScalingFactorsO_valid 20 "female" (Or.inr rfl) (by norm_num)]
    simp only [Bind.bind, Except.bind]
    rw [hc]
    simp only []
    rw [show c5cexPose.body .Neck = some (30, -20) from rfl]
    simp only []
    rw [show c5cexPose.face = ([] : List (Option Point)) from rfl]
    simp only [scaleFace]
    exact ⟨_, rfl, rfl⟩
  obtain ⟨q, hq, hqb⟩ := hs
  have hanchent := (scaleBody_inv
    (show c5cexPose.body .Neck = some ((30 : ℚ), (-20 : ℚ)) from rfl) trivial
    (stepClosed_trivial c5cexPose.body
      (adjustFactors (scalingTable 20 "female") (scalingTable 20 "female"))
      (scaleHeightRatio (some 20) (some "female") 20 "female"))).2
  refine ⟨rfl, rfl, rfl, ?_⟩
  rw [hq]
  simp only [Except.map, hqb, hanchent, Option.map_some']
  norm_num [cropPoint, c5cexPose]

/-- C6 (corrected): when the canvas bounds are nonnegative, every present
coordinate of the pose returned by `Pose.scale` — skeleton joints and every
present face, hand and foot landmark — lies in
`[0, canvas_width] × [0, canvas_height]`, and absent landmark slots pass
through as absent.  (With a negative canvas bound the clamp cannot land in
the then-empty rectangle: see the counterexample.) -/
theorem C6_clamp_total (p q : Pose) (tg : String) (ta : ℤ)
    (hw : 0 ≤ p.canvas_width) (hh : 0 ≤ p.canvas_height)
    (hs : p.scale tg ta = .ok q) :
    (∀ j pt, q.body j = some pt →
      inCanvas p.canvas_width p.canvas_height pt) ∧
    (∀ i pt, q.face.getD i none = some pt →
      inCanvas p.canvas_width p.canvas_height pt) ∧
    (∀ i pt, q.left_hand.getD i none = some pt →
      inCanvas p.canvas_width p.canvas_height pt) ∧
    (∀ i pt, q.right_hand.getD i none = some pt →
      inCanvas p.canvas_width p.canvas_height pt) ∧
    (∀ i pt, q.left_foot.getD i none = some pt →
      inCanvas p.canvas_width p.canvas_height pt) ∧
    (∀ i pt, q.right_foot.getD i none = some pt →
      inCanvas p.canvas_width p.canvas_height pt) ∧
    (∀ i, p.face.getD i none = none → q.face.getD i none = none) ∧
    (∀ i, p.left_hand.getD i none = none → q.left_hand.getD i none = none) ∧
    (∀ i, p.right_hand.getD i none = none → q.right_hand.getD i none = none) ∧
    (∀ i, p.left_foot.getD i none = none → q.left_foot.getD i none = none) ∧
    (∀ i, p.right_foot.getD i none = none →
      q.right_foot.getD i none = none) := by
  obtain ⟨inAge, inF, tF, anchor, anchorPos, newFace, hra, hgf, htf, hch, hba,
    hsf, hqb, hqf, hqlh, hqrh, hqlf, hqrf, _⟩ := scale_ok_inversion hs
  refine ⟨?_, ?_, ?_, ?_, ?_, ?_, ?_, ?_, ?_, ?_, ?_⟩
  · intro j pt hj
    rw [hqb] at hj
    simp only [] at hj
    rcases Option.map_eq_some'.mp hj with ⟨v, _, hpt⟩
    subst hpt
    exact cropPoint_inCanvas hw hh v
  · intro i pt hi
    rw [hqf, getD_map_option i] at hi
    rcases Option.map_eq_some'.mp hi with ⟨v, _, hpt⟩
    subst hpt
    exact cropPoint_inCanvas hw hh v
  · intro i pt hi
    rw [hqlh, getD_map_option i] at hi
    rcases Option.map_eq_some'.mp hi with ⟨v, _, hpt⟩
    subst hpt
    exact cropPoint_inCanvas hw hh v
  · intro i pt hi
    rw [hqrh, getD_map_option i] at hi
    rcases Option.map_eq_some'.mp hi with ⟨v, _, hpt⟩
    subst hpt
    exact cropPoint_inCanvas hw hh v
  · intro i pt hi
    rw [hqlf, getD_map_option i] at hi
    rcases Option.map_eq_some'.mp hi with ⟨v, _, hpt⟩
    subst hpt
    exact cropPoint_inCanvas hw hh v
  · intro i pt hi
    rw [hqrf, getD_map_option i] at hi
    rcases Option.map_eq_some'.mp hi with ⟨v, _, hpt⟩
    subst hpt
    exact cropPoint_inCanvas hw hh v
  · intro i hi
    rw [hqf, getD_map_option i, (scaleFace_ok_preserves hsf).2 i hi]
    rfl
  · intro i hi
    rw [hqlh, getD_map_option i,
      (scaleAndAlignPoints_preserves p.left_hand _ _ _).2 i hi]
    rfl
  · intro i hi
    rw [hqrh, getD_map_option i,
      (scaleAndAlignPoints_preserves p.right_hand _ _ _).2 i hi]
    rfl
  · intro i hi
    rw [hqlf, getD_map_option i,
      (scaleAndAlignPoints_preserves p.left_foot _ _ _).2 i hi]
    rfl
  · intro i hi
    rw [hqrf, getD_map_option i,
      (scaleAndAlignPoints_preserves p.right_foot _ _ _).2 i hi]
    rfl

/-- C6 witness: a nonnegative canvas, one in-canvas joint, one far outside,
and one absent face slot — every output joint lands inside the canvas and
the absent slot stays absent. -/
theorem C6_clamp_total_witness :
    (0 : ℚ) ≤ c6wPose.canvas_width ∧ (0 : ℚ) ≤ c6wPose.canvas_height ∧
    ∃ q, c6wPose.scale "female" 20 = .ok q ∧
      (∀ j pt, q.body j = some pt →
        inCanvas c6wPose.canvas_width c6wPose.canvas_height pt) ∧
      q.face.getD 0 none = none := by
  have hc : chooseMainSupportWithGravity (dictToKeypointsArray c6wPose.body) =
      some .Neck := by
    have e10 : kpAt (dictToKeypointsArray c6wPose.body) 10 = (0, 0, 0) := by
      norm_num [kpAt, dictToKeypointsArray, cocoOrder, c6wPose]
    have e13 : kpAt (dictToKeypointsArray c6wPose.body) 13 = (0, 0, 0) := by
      norm_num [kpAt, dictToKeypointsArray, cocoOrder, c6wPose]
    have e9 : kpAt (dictToKeypointsArray c6wPose.body) 9 = (0, 0, 0) := by
      norm_num [kpAt, dictToKeypointsArray, cocoOrder, c6wPose]
    have e12 : kpAt (dictToKeypointsArray c6wPose.body) 12 = (0, 0, 0) := by
      norm_num [kpAt, dictToKeypointsArray, cocoOrder, c6wPose]
    have e8 : kpAt (dictToKeypointsArray c6wPose.body) 8 = (0, 0, 0) := by
      norm_num [kpAt, dictToKeypointsArray, cocoOrder, c6wPose]
    have e11 : kpAt (dictToKeypointsArray c6wPose.body) 11 = (0, 0, 0) := by
      norm_num [kpAt, dictToKeypointsArray, cocoOrder, c6wPose]
    have e1 : kpAt (dictToKeypointsArray c6wPose.body) 1 = (0, 0, 9/10) := by
      norm_num [kpAt, dictToKeypointsArray, cocoOrder, c6wPose]
    unfold chooseMainSupportWithGravity supportGroups
    simp only [chooseFromGroups, List.filterMap, e10, e13, e9, e12, e8, e11, e1]
    norm_num [sortDescBy, insertDescBy, jointAt, cocoOrder]
  have hra : resolveInputAge c6wPose = .ok (some 20) :=
    resolveInputAge_declared c6wPose 20 rfl (by norm_num)
  have hs : ∃ q, c6wPose.scale "female" 20 = .ok q := by
    unfold Pose.scale
    rw [hra]
    simp only [Bind.bind, Except.bind]
    rw [resolveInputGender_declared c6wPose "female" rfl (by simp),
      getScalingFactorsO_valid 20 "female" (Or.inr rfl) (by norm_num)]
    simp only [Bind.bind, Except.bind]
    rw [hc]
    simp only []
    rw [show c6wPose.body .Neck = some (0, 0) from rfl]
    simp only []
    rw [show c6wPose.face = [(none : Option Point)] from rfl]
    simp only [scaleFace]
    exact ⟨_, rfl⟩
  obtain ⟨q, hq⟩ := hs
  have hc6 := C6_clamp_total c6wPose q "female" 20 (by norm_num [c6wPose])
    (by norm_num [c6wPose]) hq
  exact ⟨by norm_num [c6wPose], by norm_num [c6wPose], q, hq, hc6.1,
    hc6.2.2.2.2.2.2.1 0 rfl⟩

/-- C6 counterexample: with a negative declared canvas width the clamp
cannot put any coordinate inside the (empty) rectangle
`[0, canvas_width] × [0, canvas_height]`: the neck comes out at `(0, 5)`,
which violates the claimed bound `x ≤ canvas_width = -10`. -/
theorem C6_negative_canvas_cex :
    (c6cexPose.scale "female" 20).map (fun q => q.body .Neck) =
      .ok (some (0, 5)) ∧
    ¬ inCanvas c6cexPose.canvas_width c6cexPose.canvas_height (0, 5) := by
  have hc : chooseMainSupportWithGravity (dictToKeypointsArray c6cexPose.body) =
      some .Neck := by
    have e10 : kpAt (dictToKeypointsArray c6cexPose.body) 10 = (0, 0, 0) := by
      norm_num [kpAt, dictToKeypointsArray, cocoOrder, c6cexPose]
    have e13 : kpAt (dictToKeypointsArray c6cexPose.body) 13 = (0, 0, 0) := by
      norm_num [kpAt, dictToKeypointsArray, cocoOrder, c6cexPose]
    have e9 : kpAt (dictToKeypointsArray c6cexPose.body) 9 = (0, 0, 0) := by
      norm_num [kpAt, dictToKeypointsArray, cocoOrder, c6cexPose]
    have e12 : kpAt (dictToKeypointsArray c6cexPose.body) 12 = (0, 0, 0) := by
      norm_num [kpAt, dictToKeypointsArray, cocoOrder, c6cexPose]
    have e8 : kpAt (dictToKeypointsArray c6cexPose.body) 8 = (0, 0, 0) := by
      norm_num [kpAt, dictToKeypointsArray, cocoOrder, c6cexPose]
    have e11 : kpAt (dictToKeypointsArray c6cexPose.body) 11 = (0, 0, 0) := by
      norm_num [kpAt, dictToKeypointsArray, cocoOrder, c6cexPose]
    have e1 : kpAt (dictToKeypointsArray c6cexPose.body) 1 = (5, 5, 9/10) := by
      norm_num [kpAt, dictToKeypointsArray, cocoOrder, c6cexPose]
    unfold chooseMainSupportWithGravity supportGroups
    simp only [chooseFromGroups, List.filterMap, e10, e13, e9, e12, e8, e11, e1]
    norm_num [sortDescBy, insertDescBy, jointAt, cocoOrder]
  have hra : resolveInputAge c6cexPose = .ok (some 20) :=
    resolveInputAge_declared c6cexPose 20 rfl (by norm_num)
  have hs : ∃ q, c6cexPose.scale "female" 20 = .ok q ∧
      q.body = fun j =>
        ((scaleBody c6cexPose.body
          (adjustFactors (scalingTable 20 "female") (scalingTable 20 "female"))
          (scaleHeightRatio (some 20) (some "female") 20 "female")
          .Neck (5, 5)) j).map
          (cropPoint c6cexPose.canvas_width c6cexPose.canvas_height) := by
    unfold Pose.scale
    rw [hra]
    simp only [Bind.bind, Except.bind]
    rw [resolveInputGender_declared c6cexPose "female" rfl (by simp),
      getScalingFactorsO_valid 20 "female" (Or.inr rfl) (by norm_num)]
    simp only [Bind.bind, Except.bind]
    rw [hc]
    simp only []
    rw [show c6cexPose.body .Neck = some (5, 5) from rfl]
    simp only []
    rw [show c6cexPose.face = ([] : List (Option Point)) from rfl]
    simp only [scaleFace]
    exact ⟨_, rfl, rfl⟩
  obtain ⟨q, hq, hqb⟩ := hs
  have hanchent := (scaleBody_inv
    (show c6cexPose.body .Neck = some ((5 : ℚ), (5 : ℚ)) from rfl) trivial
    (stepClosed_trivial c6cexPose.body
      (adjustFactors (scalingTable 20 "female") (scalingTable 20 "female"))
      (scaleHeightRatio (some 20) (some "female") 20 "female"))).2
  constructor
  · rw [hq]
    simp only [Except.map, hqb, hanchent, Option.map_some']
    norm_num [cropPoint, c6cexPose]
  · norm_num [inCanvas, c6cexPose]

/-- C3 (code bug): `Pose.scale` does NOT leave the input pose unmodified.
`scale_face` receives the input's face list and `scale_region` assigns into
it in place, so after a successful `scale` call the caller's face list
holds the region-scaled points.  On this pose (nose at `(3, 4)`, face
slot 0 at `(10, 10)`, profile `(20, female)` scaled to `(5, female)`) the
call succeeds and the caller's slot 0 is no longer `(10, 10)`. -/
theorem C3_face_mutated :
    c3pose.face.getD 0 none = some (10, 10) ∧
    (∃ q, c3pose.scale "female" 5 = .ok q) ∧
    (faceAfterScale c3pose "female" 5).getD 0 none ≠ some (10, 10) := by
  have hc : chooseMainSupportWithGravity (dictToKeypointsArray c3pose.body) =
      some .Neck := by
    have e10 : kpAt (dictToKeypointsArray c3pose.body) 10 = (0, 0, 0) := by
      norm_num [kpAt, dictToKeypointsArray, cocoOrder, c3pose]
    have e13 : kpAt (dictToKeypointsArray c3pose.body) 13 = (0, 0, 0) := by
      norm_num [kpAt, dictToKeypointsArray, cocoOrder, c3pose]
    have e9 : kpAt (dictToKeypointsArray c3pose.body) 9 = (0, 0, 0) := by
      norm_num [kpAt, dictToKeypointsArray, cocoOrder, c3pose]
    have e12 : kpAt (dictToKeypointsArray c3pose.body) 12 = (0, 0, 0) := by
      norm_num [kpAt, dictToKeypointsArray, cocoOrder, c3pose]
    have e8 : kpAt (dictToKeypointsArray c3pose.body) 8 = (0, 0, 0) := by
      norm_num [kpAt, dictToKeypointsArray, cocoOrder, c3pose]
    have e11 : kpAt (dictToKeypointsArray c3pose.body) 11 = (0, 0, 0) := by
      norm_num [kpAt, dictToKeypointsArray, cocoOrder, c3pose]
    have e1 : kpAt (dictToKeypointsArray c3pose.body) 1 = (0, 0, 9/10) := by
      norm_num [kpAt, dictToKeypointsArray, cocoOrder, c3pose]
    unfold chooseMainSupportWithGravity supportGroups
    simp only [chooseFromGroups, List.filterMap, e10, e13, e9, e12, e8, e11, e1]
    norm_num [sortDescBy, insertDescBy, jointAt, cocoOrder]
  have hra : resolveInputAge c3pose = .ok (some 20) :=
    resolveInputAge_declared c3pose 20 rfl (by norm_num)
  have hrg : resolveInputGender c3pose = some "female" :=
    resolveInputGender_declared c3pose "female" rfl (by simp)
  have hgf : getScalingFactorsO (some 20) (some "female") =
      .ok (scalingTable 20 "female") :=
    getScalingFactorsO_valid 20 "female" (Or.inr rfl) (by norm_num)
  have htf : getScalingFactorsO (some 5) (some "female") =
      .ok (scalingTable 5 "female") :=
    getScalingFactorsO_valid 5 "female" (Or.inr rfl) (by norm_num)
  have hguard : ¬(c3pose.face = [] ∨
      c3pose.face.all (fun p => p = none)) := by decide
  have hmc : calcMouthCenter c3pose.face = .ok none := by rfl
  have hsn : scaleBody c3pose.body
      (adjustFactors (scalingTable 5 "female") (scalingTable 20 "female"))
      (scaleHeightRatio (some 20) (some "female") 5 "female")
      .Neck (0, 0) .Nose =
      some (stepValue
        (adjustFactors (scalingTable 5 "female") (scalingTable 20 "female"))
        (scaleHeightRatio (some 20) (some "female") 5 "female")
        (0, 0) (0, 0) (3, 4) .Neck .Nose) :=
    scaleBody_unique_step rfl rfl (by decide) (by norm_num [distSq, epsSq])
      (by decide)
      (fun par bp hbp hadj => by
        cases par <;>
          first
            | rfl
            | exact Option.noConfusion hbp
            | exact absurd hadj (by decide))
  have hsf := scaleFace_no_mouth
    (adjustFactors (scalingTable 5 "female") (scalingTable 20 "female"))
    (scaleHeightRatio (some 20) (some "female") 5 "female")
    (scaleBody c3pose.body
      (adjustFactors (scalingTable 5 "female") (scalingTable 20 "female"))
      (scaleHeightRatio (some 20) (some "female") 5 "female") .Neck (0, 0))
    c3pose.body hguard hmc
  have hfa := faceAfterScale_eq hra hrg hgf htf hc
    (show c3pose.body .Neck = some (0, 0) from rfl) hsf
  have hok : ∃ q, c3pose.scale "female" 5 = .ok q := by
    unfold Pose.scale
    rw [hra]
    simp only [Bind.bind, Except.bind]
    rw [hrg, hgf, htf]
    simp only [Bind.bind, Except.bind]
    rw [hc]
    simp only []
    rw [show c3pose.body .Neck = some (0, 0) from rfl]
    simp only []
    rw [show scaleHeightRatio (some 20) (some "female") 5 "female" =
      (if getHeightByAgeGender ((some (20 : ℤ)).getD 0)
          ((some "female").getD "female") > 0 then
        getHeightByAgeGender 5 "female" /
          getHeightByAgeGender ((some (20 : ℤ)).getD 0)
            ((some "female").getD "female")
      else 1) from rfl] at hsf
    rw [hsf]
    simp only [Bind.bind, Except.bind]
    exact ⟨_, rfl⟩
  refine ⟨rfl, hok, ?_⟩
  rw [hfa]
  rw [scaleRegion_getD_not_mem _ mouthIdx _ _ _ _ 0 (by decide),
    scaleRegion_getD_not_mem _ leftEyeIdx _ _ _ _ 0 (by decide),
    scaleRegion_getD_not_mem _ rightEyeIdx _ _ _ _ 0 (by decide),
    scaleRegion_getD_not_mem _ noseIdx _ _ _ _ 0 (by decide),
    scaleRegion_getD_not_mem _ leftEyebrowIdx _ _ _ _ 0 (by decide),
    scaleRegion_getD_not_mem _ rightEyebrowIdx _ _ _ _ 0 (by decide),
    scaleRegion_getD_not_mem _ jawIdx _ _ _ _ 0 (by decide)]
  rw [hsn, show c3pose.body .Nose = some (3, 4) from rfl]
  rw [scaleRegion_getD_mem c3pose.face faceContourIdx _ _ _ _ 0 (by decide)
    (10, 10) rfl]
  have hfm : (("female" : String) = "male") = False := by simp
  norm_num [stepValue, getEdgeFactor, connLookup, adjustFactors, scalingTable,
    ageRangeFactors, applyGenderFactors, scalingFactorsBase, scaleHeightRatio,
    getHeightByAgeGender, heightData, hfm, Option.some.injEq, Prod.mk.injEq]

/-- C9 (code bug): a face whose mouth landmarks are present but whose Nose
keypoint is absent does NOT leave the mouth sub-region unscaled with a
non-fatal diagnostic — the unguarded `scaled_keypoints["Nose"]` access
while scaling the mouth center raises KeyError and the whole `scale` call
aborts. -/
theorem C9_missing_nose_aborts :
    c9pose.face.getD 48 none = some (5, 5) ∧
    c9pose.body .Nose = none ∧
    c9pose.scale "female" 20 = .error .keyErr := by
  have hc : chooseMainSupportWithGravity (dictToKeypointsArray c9pose.body) =
      some .Neck := by
    have e10 : kpAt (dictToKeypointsArray c9pose.body) 10 = (0, 0, 0) := by
      norm_num [kpAt, dictToKeypointsArray, cocoOrder, c9pose]
    have e13 : kpAt (dictToKeypointsArray c9pose.body) 13 = (0, 0, 0) := by
      norm_num [kpAt, dictToKeypointsArray, cocoOrder, c9pose]
    have e9 : kpAt (dictToKeypointsArray c9pose.body) 9 = (0, 0, 0) := by
      norm_num [kpAt, dictToKeypointsArray, cocoOrder, c9pose]
    have e12 : kpAt (dictToKeypointsArray c9pose.body) 12 = (0, 0, 0) := by
      norm_num [kpAt, dictToKeypointsArray, cocoOrder, c9pose]
    have e8 : kpAt (dictToKeypointsArray c9pose.body) 8 = (0, 0, 0) := by
      norm_num [kpAt, dictToKeypointsArray, cocoOrder, c9pose]
    have e11 : kpAt (dictToKeypointsArray c9pose.body) 11 = (0, 0, 0) := by
      norm_num [kpAt, dictToKeypointsArray, cocoOrder, c9pose]
    have e1 : kpAt (dictToKeypointsArray c9pose.body) 1 = (50, 50, 9/10) := by
      norm_num [kpAt, dictToKeypointsArray, cocoOrder, c9pose]
    unfold chooseMainSupportWithGravity supportGroups
    simp only [chooseFromGroups, List.filterMap, e10, e13, e9, e12, e8, e11, e1]
    norm_num [sortDescBy, insertDescBy, jointAt, cocoOrder]
  have hra : resolveInputAge c9pose = .ok (some 20) :=
    resolveInputAge_declared c9pose 20 rfl (by norm_num)
  have hsb : ∀ f hr, scaleBody c9pose.body f hr .Neck (50, 50) .Nose =
      none := by
    intro f hr
    have hnostep : ∀ c, ¬ codeStep c9pose.body .Neck c := by
      rintro c ⟨hadj, pu, pc, hbu, hbc, hd⟩
      cases c <;>
        first
          | exact Option.noConfusion hbc
          | exact absurd hadj (by decide)
    have hreachonly : ∀ j, CodeReach c9pose.body .Neck j → j = .Neck := by
      intro j h
      induction h with
      | refl => rfl
      | tail hp hs ih =>
        subst ih
        exact absurd hs (hnostep _)
    rw [← Option.not_isSome_iff_eq_none]
    intro hsome
    exact Joint.noConfusion (hreachonly .Nose
      ((scaleBody_isSome_iff
        (show c9pose.body .Neck = some ((50 : ℚ), (50 : ℚ)) from rfl)
        .Nose).mp hsome))
  have hguard : ¬(c9pose.face = [] ∨
      c9pose.face.all (fun p => p = none)) := by decide
  have hmc : calcMouthCenter c9pose.face = .ok (some (5, 5)) := by
    unfold calcMouthCenter
    rw [if_neg (by norm_num [c9pose, List.length_append, List.length_replicate] :
      ¬ c9pose.face.length < 68)]
    simp only [show ((c9pose.face.drop 48).take 20).filterMap id =
      [((5 : ℚ), (5 : ℚ))] from by decide]
    norm_num
  refine ⟨rfl, rfl, ?_⟩
  unfold Pose.scale
  rw [hra]
  simp only [Bind.bind, Except.bind]
  rw [resolveInputGender_declared c9pose "female" rfl (by simp),
    getScalingFactorsO_valid 20 "female" (Or.inr rfl) (by norm_num)]
  simp only [Bind.bind, Except.bind]
  rw [hc]
  simp only []
  rw [show c9pose.body .Neck = some (50, 50) from rfl]
  simp only []
  rw [scaleFace_missing_nose _ _ _ c9pose.body hguard hmc (hsb _ _)]

end PoseMod
